import Mathlib

/-!
Verification of the mkhls rendition-planning and command-building core.

The JavaScript sources are embedded shallowly: JS numbers become exact
rationals (`ℚ`), JS arrays become `List`s, stateful argument-list building
becomes explicit list accumulation, and a JS runtime `TypeError` (reading a
property of `undefined`) becomes `Except String`.
-/

namespace Mkhls

/-! ## Preview sprite planner (`src/utils/getTimelinePreviewSpecs.js`) -/

/-- The three CLI tunables read by `getTimelinePreviewSpecs` from `cli.opts`:
`timelinePreviewIntervalMin`, `timelinePreviewIntervalMax`,
`timelinePreviewMaxImages`. -/
structure PreviewOpts where
  intMin : ℚ
  intMax : ℚ
  maxImgs : ℚ
deriving Repr, DecidableEq

/-- Result shape `{frames, interval}` returned by `getTimelinePreviewSpecs`. -/
structure PreviewSpecs where
  frames : ℚ
  interval : ℚ
deriving Repr, DecidableEq

/-- Embedding of `getTimelinePreviewSpecs(duration)`
(`src/utils/getTimelinePreviewSpecs.js` lines 9-29). JS division is modelled
by total `ℚ` division (the `duration = 0` case divides by zero in both, JS
yielding `NaN` and `ℚ` yielding `0`). -/
def getTimelinePreviewSpecs (o : PreviewOpts) (duration : ℚ) : PreviewSpecs :=
  let frameCount : ℚ :=
    if duration ≤ o.intMin * 60 then duration / o.intMin
    else if duration ≤ o.intMax * 60 then 60
    else if duration ≤ o.intMax * o.maxImgs then duration / o.intMax
    else o.maxImgs
  { frames := frameCount, interval := duration / frameCount }

/-- The tier rule exactly as the specification words it: start at `maxImages`
and tighten through the three tiers. Stated separately from the embedding so
that the code can be compared against the spec's wording. -/
def specTierFrameCount (o : PreviewOpts) (duration : ℚ) : ℚ :=
  if duration ≤ o.intMin * 60 then duration / o.intMin
  else if duration ≤ o.intMax * 60 then 60
  else if duration ≤ o.intMax * o.maxImgs then duration / o.intMax
  else o.maxImgs

/-- Unfolding lemma: the planner returns the tier-rule frame count and
`duration / frameCount`. -/
lemma previewSpecs_eq (o : PreviewOpts) (d : ℚ) :
    getTimelinePreviewSpecs o d =
      { frames := specTierFrameCount o d, interval := d / specTierFrameCount o d } := rfl

end Mkhls

namespace Mkhls

/-- C1: for every duration and tunables, `getTimelinePreviewSpecs` returns
frames by exactly the spec's tier rule and `interval = duration / frames`;
in particular with `minInterval=1, maxInterval=10, maxImages=180` the
durations 30, 300 and 3600 give frames 30/60/180 and intervals 1/5/20. -/
theorem c1_preview_tier_rule :
    (∀ (o : PreviewOpts) (d : ℚ),
      getTimelinePreviewSpecs o d =
        { frames := specTierFrameCount o d,
          interval := d / specTierFrameCount o d }) ∧
    getTimelinePreviewSpecs ⟨1, 10, 180⟩ 30 = { frames := 30, interval := 1 } ∧
    getTimelinePreviewSpecs ⟨1, 10, 180⟩ 300 = { frames := 60, interval := 5 } ∧
    getTimelinePreviewSpecs ⟨1, 10, 180⟩ 3600 = { frames := 180, interval := 20 } := by
  refine ⟨fun o d => rfl, ?_, ?_, ?_⟩ <;>
    · simp only [getTimelinePreviewSpecs, PreviewSpecs.mk.injEq]
      norm_num

end Mkhls

namespace Mkhls

/-- C4 counterexample: at the spec's own default tunables
`minInterval=1 ≤ maxInterval=10`, `maxImages=180 ≥ 1` and positive duration
`3600`, the returned `interval` is `20`, which exceeds `maxInterval = 10`:
the claimed invariant `frameIntervalSeconds ∈ [minInterval, maxInterval]`
fails in the long-media tier. -/
theorem c4_counterexample :
    (0:ℚ) < 1 ∧ (1:ℚ) ≤ 10 ∧ (1:ℚ) ≤ 180 ∧ (0:ℚ) < 3600 ∧
    (getTimelinePreviewSpecs ⟨1, 10, 180⟩ 3600).interval = 20 ∧
    ¬ ((getTimelinePreviewSpecs ⟨1, 10, 180⟩ 3600).interval ≤ (10:ℚ)) := by
  rw [previewSpecs_eq]
  simp only [specTierFrameCount]
  norm_num

/-- C4 (amended): for `0 < minInterval ≤ maxInterval`, `maxImages ≥ 1` and
positive duration, the planner always satisfies
`interval * frames = duration` and `interval ≥ minInterval`; the remaining
claimed invariants (`frames ≤ maxImages`, `frames ≥ 1`,
`interval ≤ maxInterval`) hold under the additional bounds
`maxImages ≥ 60` and `minInterval ≤ duration ≤ maxInterval * maxImages`
(outside these, the code trades them away: very long media exceeds
`maxInterval`, media shorter than `minInterval` yields `frames < 1`, and
`maxImages < 60` can be exceeded by the fixed 60-frame tier). -/
theorem c4_preview_invariants_amended (o : PreviewOpts) (d : ℚ)
    (hmin : 0 < o.intMin) (hmm : o.intMin ≤ o.intMax)
    (hK : 1 ≤ o.maxImgs) (hd : 0 < d) :
    (getTimelinePreviewSpecs o d).interval * (getTimelinePreviewSpecs o d).frames = d ∧
    o.intMin ≤ (getTimelinePreviewSpecs o d).interval ∧
    (60 ≤ o.maxImgs → o.intMin ≤ d → d ≤ o.intMax * o.maxImgs →
      (getTimelinePreviewSpecs o d).frames ≤ o.maxImgs ∧
      1 ≤ (getTimelinePreviewSpecs o d).frames ∧
      (getTimelinePreviewSpecs o d).interval ≤ o.intMax) := by
  obtain ⟨m, M, K⟩ := o
  simp only at hmin hmm hK
  have hM : 0 < M := lt_of_lt_of_le hmin hmm
  rw [previewSpecs_eq]
  simp only [specTierFrameCount]
  split_ifs with h1 h2 h3
  · -- tier 1: d ≤ m * 60, frames = d / m
    have hdm : (0:ℚ) < d / m := div_pos hd hmin
    have hself : d / (d / m) = m := by
      rw [div_div_eq_mul_div, mul_comm, mul_div_assoc, div_self hd.ne', mul_one]
    refine ⟨?_, ?_, fun h60 hlo _ => ⟨?_, ?_, ?_⟩⟩
    · rw [hself]; field_simp
    · rw [hself]
    · calc d / m ≤ 60 := (div_le_iff₀ hmin).2 (by linarith)
        _ ≤ K := h60
    · exact (one_le_div hmin).2 hlo
    · rw [hself]; exact hmm
  · -- tier 2: m * 60 < d ≤ M * 60, frames = 60
    refine ⟨div_mul_cancel₀ d (by norm_num), ?_, fun h60 _ _ => ⟨by linarith, by norm_num, ?_⟩⟩
    · rw [le_div_iff₀ (by norm_num : (0:ℚ) < 60)]
      nlinarith
    · rw [div_le_iff₀ (by norm_num : (0:ℚ) < 60)]
      linarith
  · -- tier 3: M * 60 < d ≤ M * K, frames = d / M
    have hdM : (0:ℚ) < d / M := div_pos hd hM
    have hself : d / (d / M) = M := by
      rw [div_div_eq_mul_div, mul_comm, mul_div_assoc, div_self hd.ne', mul_one]
    refine ⟨?_, ?_, fun _ _ hhi => ⟨?_, ?_, ?_⟩⟩
    · rw [hself]; field_simp
    · rw [hself]; exact hmm
    · exact (div_le_iff₀ hM).2 (by linarith [mul_comm M K])
    · rw [le_div_iff₀ hM]; nlinarith
    · rw [hself]
  · -- tier 4: d > M * K, frames = K
    have hK0 : (0:ℚ) < K := by linarith
    push_neg at h3
    refine ⟨?_, ?_, fun _ _ hhi => absurd hhi (not_le.2 h3)⟩
    · field_simp
    · rw [le_div_iff₀ hK0]; nlinarith

/-- Witness for `c4_preview_invariants_amended` at the default tunables and
duration 300 (tier 2). -/
theorem c4_preview_invariants_amended_witness :
    (0:ℚ) < 1 ∧ (1:ℚ) ≤ 10 ∧ (1:ℚ) ≤ 180 ∧ (0:ℚ) < 300 ∧
    ((getTimelinePreviewSpecs ⟨1, 10, 180⟩ 300).interval *
        (getTimelinePreviewSpecs ⟨1, 10, 180⟩ 300).frames = 300 ∧
      (1:ℚ) ≤ (getTimelinePreviewSpecs ⟨1, 10, 180⟩ 300).interval ∧
      ((60:ℚ) ≤ 180 → (1:ℚ) ≤ 300 → (300:ℚ) ≤ 10 * 180 →
        (getTimelinePreviewSpecs ⟨1, 10, 180⟩ 300).frames ≤ 180 ∧
        1 ≤ (getTimelinePreviewSpecs ⟨1, 10, 180⟩ 300).frames ∧
        (getTimelinePreviewSpecs ⟨1, 10, 180⟩ 300).interval ≤ 10)) :=
  ⟨by norm_num, by norm_num, by norm_num, by norm_num,
    c4_preview_invariants_amended ⟨1, 10, 180⟩ 300
      (by norm_num) (by norm_num) (by norm_num) (by norm_num)⟩

end Mkhls

namespace Mkhls

/-! ## Rendition planner (`src/bin/mkhls.js`, `setup`, lines 108-134) -/

/-- One output variant as built by `setup`: `{ height, bitrate, profile,
level }`. `none` in `bitrate`/`profile`/`level` models the JS
`NaN`/`undefined` outcome when the corresponding configured list is empty. -/
structure Rendition where
  height : ℕ
  bitrate : Option ℚ
  profile : Option String
  level : Option String
deriving Repr, DecidableEq

/-- JS `list[i] || list[list.length - 1]` on a numeric list: a truthy
(nonzero) in-range entry is used; a falsy (`0`) or out-of-range access falls
through to the final element (`none` when the list is empty). -/
def jsOrNum (l : List ℚ) (i : ℕ) : Option ℚ :=
  match l.get? i with
  | some v => if v ≠ 0 then some v else l.get? (l.length - 1)
  | none => l.get? (l.length - 1)

/-- JS `list[i] || list[list.length - 1]` on a string list: a truthy
(nonempty) in-range entry is used; a falsy (`""`) or out-of-range access
falls through to the final element. -/
def jsOrStr (l : List String) (i : ℕ) : Option String :=
  match l.get? i with
  | some v => if v ≠ "" then some v else l.get? (l.length - 1)
  | none => l.get? (l.length - 1)

/-- The rendition object literal built at `src/bin/mkhls.js` lines 126-131
for the candidate at `index`. -/
def renditionCandidate (bitrates : List ℚ) (profiles levels : List String)
    (index resolution : ℕ) : Rendition :=
  { height := resolution
    bitrate := jsOrNum bitrates index
    profile := jsOrStr profiles index
    level := jsOrStr levels index }

/-- The skip event logged for a candidate taller than the source. -/
def skipMessage (resolution srcHeight : ℕ) : String :=
  s!"Skipping {resolution}p output, source is {srcHeight}p"

/-- One step of the `cli.opts.videoResolutions.map(...)` callback: a
too-tall resolution yields `undefined` (and logs a skip event), otherwise
the candidate `Rendition`. -/
def planStep (srcHeight : ℕ) (bitrates : List ℚ) (profiles levels : List String)
    (index resolution : ℕ) : Option Rendition × Option String :=
  if srcHeight < resolution then
    (none, some (skipMessage resolution srcHeight))
  else
    (some (renditionCandidate bitrates profiles levels index resolution), none)

/-- Embedding of the rendition-planning block of `setup`: map the configured
resolution list with its index, then `.filter(Boolean)`. Returns the pair
(surviving renditions, logged skip events). -/
def planRenditions (srcHeight : ℕ) (resolutions : List ℕ) (bitrates : List ℚ)
    (profiles levels : List String) : List Rendition × List String :=
  let steps := resolutions.enum.map fun p =>
    planStep srcHeight bitrates profiles levels p.1 p.2
  (steps.filterMap Prod.fst, steps.filterMap Prod.snd)

/-- The surviving heights are exactly the configured heights that do not
exceed the source height, in configured order (index base irrelevant). -/
lemma planSteps_heights (srcHeight : ℕ) (bitrates : List ℚ)
    (profiles levels : List String) :
    ∀ (k : ℕ) (res : List ℕ),
      (((res.enumFrom k).map fun p =>
            planStep srcHeight bitrates profiles levels p.1 p.2).filterMap
          Prod.fst).map Rendition.height
        = res.filter (fun h => h ≤ srcHeight) := by
  intro k res
  induction res generalizing k with
  | nil => rfl
  | cons r rs ih =>
    by_cases hr : srcHeight < r
    · simp only [List.enumFrom_cons, List.map_cons, List.filter_cons]
      simp [planStep, hr, Nat.not_le.2 hr]
      simpa [List.filterMap_map] using ih (k + 1)
    · simp only [List.enumFrom_cons, List.map_cons, List.filter_cons]
      simp [planStep, hr, Nat.not_lt.1 hr, renditionCandidate]
      simpa [List.filterMap_map] using ih (k + 1)

/-- The skip events are exactly one per filtered-out candidate. -/
lemma planSteps_events (srcHeight : ℕ) (bitrates : List ℚ)
    (profiles levels : List String) :
    ∀ (k : ℕ) (res : List ℕ),
      ((res.enumFrom k).map fun p =>
            planStep srcHeight bitrates profiles levels p.1 p.2).filterMap
          Prod.snd
        = (res.filter (fun h => srcHeight < h)).map
            (fun r => skipMessage r srcHeight) := by
  intro k res
  induction res generalizing k with
  | nil => rfl
  | cons r rs ih =>
    by_cases hr : srcHeight < r
    · simp only [List.enumFrom_cons, List.map_cons, List.filter_cons]
      simp [planStep, hr]
      simpa [List.filterMap_map] using ih (k + 1)
    · simp only [List.enumFrom_cons, List.map_cons, List.filter_cons]
      simp [planStep, hr]
      simpa [List.filterMap_map] using ih (k + 1)

end Mkhls

namespace Mkhls

/-- C2: the planner's surviving list never contains a rendition taller than
the source, survivors keep the configured order (their heights are exactly
the order-preserving filter of the configured list), and one informational
skip event is logged per filtered-out candidate. -/
theorem c2_rendition_filter (srcHeight : ℕ) (resolutions : List ℕ)
    (bitrates : List ℚ) (profiles levels : List String) :
    (∀ r ∈ (planRenditions srcHeight resolutions bitrates profiles levels).1,
        r.height ≤ srcHeight) ∧
    ((planRenditions srcHeight resolutions bitrates profiles levels).1.map
        Rendition.height = resolutions.filter (fun h => h ≤ srcHeight)) ∧
    (planRenditions srcHeight resolutions bitrates profiles levels).2.length
      = (resolutions.filter (fun h => srcHeight < h)).length := by
  have hh := planSteps_heights srcHeight bitrates profiles levels 0 resolutions
  have he := planSteps_events srcHeight bitrates profiles levels 0 resolutions
  refine ⟨?_, ?_, ?_⟩
  · intro r hr
    have : r.height ∈ (planRenditions srcHeight resolutions bitrates profiles
        levels).1.map Rendition.height := List.mem_map_of_mem _ hr
    rw [show (planRenditions srcHeight resolutions bitrates profiles levels).1
        = ((resolutions.enumFrom 0).map fun p =>
            planStep srcHeight bitrates profiles levels p.1 p.2).filterMap
          Prod.fst from rfl, hh] at this
    simpa using (List.mem_filter.1 this).2
  · exact hh
  · rw [show (planRenditions srcHeight resolutions bitrates profiles levels).2
        = ((resolutions.enumFrom 0).map fun p =>
            planStep srcHeight bitrates profiles levels p.1 p.2).filterMap
          Prod.snd from rfl, he]
    simp

/-- Witness for `c2_rendition_filter`: a 720p source against the default
configured ladder. -/
theorem c2_rendition_filter_witness :
    (∀ r ∈ (planRenditions 720 [2160, 1440, 1080, 720, 480, 360, 240]
        [18000, 10000, 6000, 3000, 1500, 800, 600]
        ["high", "high", "high", "high", "high", "main", "main"]
        ["5.2", "5.2", "5.1", "4.2", "4.0", "3.1", "3.1"]).1,
        r.height ≤ 720) ∧
    ((planRenditions 720 [2160, 1440, 1080, 720, 480, 360, 240]
        [18000, 10000, 6000, 3000, 1500, 800, 600]
        ["high", "high", "high", "high", "high", "main", "main"]
        ["5.2", "5.2", "5.1", "4.2", "4.0", "3.1", "3.1"]).1.map
        Rendition.height = [2160, 1440, 1080, 720, 480, 360, 240].filter
          (fun h => h ≤ 720)) ∧
    (planRenditions 720 [2160, 1440, 1080, 720, 480, 360, 240]
        [18000, 10000, 6000, 3000, 1500, 800, 600]
        ["high", "high", "high", "high", "high", "main", "main"]
        ["5.2", "5.2", "5.1", "4.2", "4.0", "3.1", "3.1"]).2.length
      = ([2160, 1440, 1080, 720, 480, 360, 240].filter
          (fun h => (720:ℕ) < h)).length :=
  c2_rendition_filter 720 [2160, 1440, 1080, 720, 480, 360, 240]
    [18000, 10000, 6000, 3000, 1500, 800, 600]
    ["high", "high", "high", "high", "high", "main", "main"]
    ["5.2", "5.2", "5.1", "4.2", "4.0", "3.1", "3.1"]

end Mkhls

namespace Mkhls

/-- Out-of-range numeric lookup falls back to the final element. -/
lemma jsOrNum_out (l : List ℚ) (i : ℕ) (h : l.length ≤ i) :
    jsOrNum l i = l.getLast? := by
  simp [jsOrNum, List.get?_eq_none.2 h, List.getElem?_eq_none h,
    List.getLast?_eq_getElem?]

/-- In-range numeric lookup uses the entry only when it is truthy. -/
lemma jsOrNum_in (l : List ℚ) (i : ℕ) (hi : i < l.length) :
    jsOrNum l i =
      if l.get ⟨i, hi⟩ ≠ 0 then some (l.get ⟨i, hi⟩) else l.getLast? := by
  simp [jsOrNum, List.getElem?_eq_getElem hi, List.get_eq_getElem,
    List.getLast?_eq_getElem?]

/-- Out-of-range string lookup falls back to the final element. -/
lemma jsOrStr_out (l : List String) (i : ℕ) (h : l.length ≤ i) :
    jsOrStr l i = l.getLast? := by
  simp [jsOrStr, List.get?_eq_none.2 h, List.getElem?_eq_none h,
    List.getLast?_eq_getElem?]

/-- In-range string lookup uses the entry only when it is truthy. -/
lemma jsOrStr_in (l : List String) (i : ℕ) (hi : i < l.length) :
    jsOrStr l i =
      if l.get ⟨i, hi⟩ ≠ "" then some (l.get ⟨i, hi⟩) else l.getLast? := by
  simp [jsOrStr, List.getElem?_eq_getElem hi, List.get_eq_getElem,
    List.getLast?_eq_getElem?]

end Mkhls

namespace Mkhls

/-- C3 counterexample: with configured heights `[720,480,360]` and the
shorter bitrate list `[0, 3000]` (unequal lengths) against a 1080p source,
the rendition at position 0 carries bitrate `3000`, not `bitrates[0] = 0`:
the in-range index-0 entry is discarded because it is falsy. -/
theorem c3_counterexample :
    ((planRenditions 1080 [720, 480, 360] [0, 3000] ["high"] ["3.1"]).1.map
        Rendition.bitrate).get? 0 = some (some 3000) ∧
    [(0:ℚ), 3000].get? 0 = some 0 ∧
    some (3000:ℚ) ≠ some (0:ℚ) := by
  refine ⟨?_, rfl, by norm_num⟩
  norm_num [planRenditions, planStep, renditionCandidate, jsOrNum, List.enum,
    List.enumFrom, List.filterMap_cons]

/-- C3 (amended): for every index `i`, the candidate at position `i` uses
`bitrates[i]` when `i < len(bitrates)` AND that entry is truthy (a nonzero
bitrate, a nonempty profile/level string); in every other case — index out
of range, or an in-range falsy entry — it uses that list's final element
(`undefined`/`NaN` when the list is empty). -/
theorem c3_padding_amended (bitrates : List ℚ) (profiles levels : List String)
    (i res : ℕ) :
    (bitrates.length ≤ i →
      (renditionCandidate bitrates profiles levels i res).bitrate
        = bitrates.getLast?) ∧
    (∀ hi : i < bitrates.length,
      (renditionCandidate bitrates profiles levels i res).bitrate
        = if bitrates.get ⟨i, hi⟩ ≠ 0 then some (bitrates.get ⟨i, hi⟩)
          else bitrates.getLast?) ∧
    (profiles.length ≤ i →
      (renditionCandidate bitrates profiles levels i res).profile
        = profiles.getLast?) ∧
    (∀ hi : i < profiles.length,
      (renditionCandidate bitrates profiles levels i res).profile
        = if profiles.get ⟨i, hi⟩ ≠ "" then some (profiles.get ⟨i, hi⟩)
          else profiles.getLast?) ∧
    (levels.length ≤ i →
      (renditionCandidate bitrates profiles levels i res).level
        = levels.getLast?) ∧
    (∀ hi : i < levels.length,
      (renditionCandidate bitrates profiles levels i res).level
        = if levels.get ⟨i, hi⟩ ≠ "" then some (levels.get ⟨i, hi⟩)
          else levels.getLast?) :=
  ⟨fun h => jsOrNum_out bitrates i h,
   fun hi => jsOrNum_in bitrates i hi,
   fun h => jsOrStr_out profiles i h,
   fun hi => jsOrStr_in profiles i hi,
   fun h => jsOrStr_out levels i h,
   fun hi => jsOrStr_in levels i hi⟩

/-- Witness for `c3_padding_amended` at index 2 against the two-element
bitrate list `[18000, 10000]` (out of range) and in-range profile/level
lists. -/
theorem c3_padding_amended_witness :
    (([(18000:ℚ), 10000].length ≤ 2 →
      (renditionCandidate [18000, 10000] ["high", "high", "main"]
          ["5.2", "5.1", "3.1"] 2 480).bitrate = [(18000:ℚ), 10000].getLast?) ∧
    (∀ hi : 2 < [(18000:ℚ), 10000].length,
      (renditionCandidate [18000, 10000] ["high", "high", "main"]
          ["5.2", "5.1", "3.1"] 2 480).bitrate
        = if [(18000:ℚ), 10000].get ⟨2, hi⟩ ≠ 0
          then some ([(18000:ℚ), 10000].get ⟨2, hi⟩)
          else [(18000:ℚ), 10000].getLast?) ∧
    (["high", "high", "main"].length ≤ 2 →
      (renditionCandidate [18000, 10000] ["high", "high", "main"]
          ["5.2", "5.1", "3.1"] 2 480).profile
        = ["high", "high", "main"].getLast?) ∧
    (∀ hi : 2 < ["high", "high", "main"].length,
      (renditionCandidate [18000, 10000] ["high", "high", "main"]
          ["5.2", "5.1", "3.1"] 2 480).profile
        = if ["high", "high", "main"].get ⟨2, hi⟩ ≠ ""
          then some (["high", "high", "main"].get ⟨2, hi⟩)
          else ["high", "high", "main"].getLast?) ∧
    (["5.2", "5.1", "3.1"].length ≤ 2 →
      (renditionCandidate [18000, 10000] ["high", "high", "main"]
          ["5.2", "5.1", "3.1"] 2 480).level
        = ["5.2", "5.1", "3.1"].getLast?) ∧
    (∀ hi : 2 < ["5.2", "5.1", "3.1"].length,
      (renditionCandidate [18000, 10000] ["high", "high", "main"]
          ["5.2", "5.1", "3.1"] 2 480).level
        = if ["5.2", "5.1", "3.1"].get ⟨2, hi⟩ ≠ ""
          then some (["5.2", "5.1", "3.1"].get ⟨2, hi⟩)
          else ["5.2", "5.1", "3.1"].getLast?)) :=
  c3_padding_amended [18000, 10000] ["high", "high", "main"]
    ["5.2", "5.1", "3.1"] 2 480

/-- C10: in the rendition planner, a configured bitrate/profile/level entry
that is falsy (bitrate `0`, empty-string profile or level) at an in-range
index is nevertheless replaced by that list's final element, because the
lookup is `value || lastElement`; exact in-range values are used only when
truthy. -/
theorem c10_truthiness_fallback (bitrates : List ℚ)
    (profiles levels : List String) (i res : ℕ)
    (hib : i < bitrates.length) (hip : i < profiles.length)
    (hil : i < levels.length) :
    (bitrates.get ⟨i, hib⟩ = 0 →
      (renditionCandidate bitrates profiles levels i res).bitrate
        = bitrates.getLast?) ∧
    (bitrates.get ⟨i, hib⟩ ≠ 0 →
      (renditionCandidate bitrates profiles levels i res).bitrate
        = some (bitrates.get ⟨i, hib⟩)) ∧
    (profiles.get ⟨i, hip⟩ = "" →
      (renditionCandidate bitrates profiles levels i res).profile
        = profiles.getLast?) ∧
    (profiles.get ⟨i, hip⟩ ≠ "" →
      (renditionCandidate bitrates profiles levels i res).profile
        = some (profiles.get ⟨i, hip⟩)) ∧
    (levels.get ⟨i, hil⟩ = "" →
      (renditionCandidate bitrates profiles levels i res).level
        = levels.getLast?) ∧
    (levels.get ⟨i, hil⟩ ≠ "" →
      (renditionCandidate bitrates profiles levels i res).level
        = some (levels.get ⟨i, hil⟩)) := by
  refine ⟨fun h0 => ?_, fun h0 => ?_, fun h0 => ?_, fun h0 => ?_,
    fun h0 => ?_, fun h0 => ?_⟩
  · rw [show (renditionCandidate bitrates profiles levels i res).bitrate
        = jsOrNum bitrates i from rfl, jsOrNum_in bitrates i hib, if_neg]
    simpa [List.get_eq_getElem] using h0
  · rw [show (renditionCandidate bitrates profiles levels i res).bitrate
        = jsOrNum bitrates i from rfl, jsOrNum_in bitrates i hib, if_pos h0]
  · rw [show (renditionCandidate bitrates profiles levels i res).profile
        = jsOrStr profiles i from rfl, jsOrStr_in profiles i hip, if_neg]
    simpa [List.get_eq_getElem] using h0
  · rw [show (renditionCandidate bitrates profiles levels i res).profile
        = jsOrStr profiles i from rfl, jsOrStr_in profiles i hip, if_pos h0]
  · rw [show (renditionCandidate bitrates profiles levels i res).level
        = jsOrStr levels i from rfl, jsOrStr_in levels i hil, if_neg]
    simpa [List.get_eq_getElem] using h0
  · rw [show (renditionCandidate bitrates profiles levels i res).level
        = jsOrStr levels i from rfl, jsOrStr_in levels i hil, if_pos h0]

/-- Witness for `c10_truthiness_fallback` at index 0 of
`bitrates = [0, 3000]`, `profiles = ["", "high"]`, `levels = ["3.1", "4.0"]`. -/
theorem c10_truthiness_fallback_witness :
    (([(0:ℚ), 3000].get ⟨0, by decide⟩ = 0 →
      (renditionCandidate [0, 3000] ["", "high"] ["3.1", "4.0"] 0 720).bitrate
        = [(0:ℚ), 3000].getLast?) ∧
    ([(0:ℚ), 3000].get ⟨0, by decide⟩ ≠ 0 →
      (renditionCandidate [0, 3000] ["", "high"] ["3.1", "4.0"] 0 720).bitrate
        = some ([(0:ℚ), 3000].get ⟨0, by decide⟩)) ∧
    (["", "high"].get ⟨0, by decide⟩ = "" →
      (renditionCandidate [0, 3000] ["", "high"] ["3.1", "4.0"] 0 720).profile
        = ["", "high"].getLast?) ∧
    (["", "high"].get ⟨0, by decide⟩ ≠ "" →
      (renditionCandidate [0, 3000] ["", "high"] ["3.1", "4.0"] 0 720).profile
        = some (["", "high"].get ⟨0, by decide⟩)) ∧
    (["3.1", "4.0"].get ⟨0, by decide⟩ = "" →
      (renditionCandidate [0, 3000] ["", "high"] ["3.1", "4.0"] 0 720).level
        = ["3.1", "4.0"].getLast?) ∧
    (["3.1", "4.0"].get ⟨0, by decide⟩ ≠ "" →
      (renditionCandidate [0, 3000] ["", "high"] ["3.1", "4.0"] 0 720).level
        = some (["3.1", "4.0"].get ⟨0, by decide⟩))) :=
  c10_truthiness_fallback [0, 3000] ["", "high"] ["3.1", "4.0"] 0 720
    (by decide) (by decide) (by decide)

end Mkhls

namespace Mkhls

/-! ## Sprite mosaic geometry and cue timing
(`src/bin/mkhls.js`, `processImages`, lines 360-417) -/

/-- `Math.ceil(seekImages.length / columnsPerRow)`: the sprite row count.
For `cols > 0` Nat ceiling division agrees with the JS float `ceil`. -/
def mosaicRows (numImages cols : ℕ) : ℕ := (numImages + cols - 1) / cols

/-- `totalWidth = seekImageMeta.width * columnsPerRow`. -/
def mosaicTotalWidth (tileW cols : ℕ) : ℕ := tileW * cols

/-- `totalHeight = seekImageMeta.height * rows`. -/
def mosaicTotalHeight (tileH rows : ℕ) : ℕ := tileH * rows

/-- `left: Math.floor(index % columnsPerRow) * width` (the `floor` is a
no-op on integers). -/
def tileLeft (cols tileW index : ℕ) : ℕ := (index % cols) * tileW

/-- `top: Math.floor(index / columnsPerRow) * height`. -/
def tileTop (cols tileH index : ℕ) : ℕ := (index / cols) * tileH

/-- The pixel `(px, py)` lies inside frame `index`'s placement rectangle. -/
def inTile (cols tileW tileH index px py : ℕ) : Prop :=
  tileLeft cols tileW index ≤ px ∧ px < tileLeft cols tileW index + tileW ∧
  tileTop cols tileH index ≤ py ∧ py < tileTop cols tileH index + tileH

instance (cols tileW tileH index px py : ℕ) :
    Decidable (inTile cols tileW tileH index px py) := by
  unfold inTile; infer_instance

/-- `currentTime = index * transcoder.meta.mosaic.interval` (the VTT entry
start time, before timestamp formatting). -/
def cueStart (interval : ℚ) (index : ℕ) : ℚ := index * interval

/-- `currentTime + transcoder.meta.mosaic.interval` (the VTT entry end). -/
def cueEnd (interval : ℚ) (index : ℕ) : ℚ := cueStart interval index + interval

/-- A point strictly below `a/w*w + w` given `w > 0`. -/
lemma lt_div_mul_add (a w : ℕ) (hw : 0 < w) : a < a / w * w + w := by
  have h1 := Nat.div_add_mod a w
  have h2 := Nat.mod_lt a hw
  have h3 : w * (a / w) = a / w * w := Nat.mul_comm _ _
  linarith

/-- `%` of a row-major index with the column part in range. -/
lemma add_mul_mod_eq (r c cols : ℕ) (h : c < cols) :
    (r * cols + c) % cols = c := by
  rw [Nat.mul_add_mod' r cols c, Nat.mod_eq_of_lt h]

/-- `/` of a row-major index with the column part in range. -/
lemma add_mul_div_eq (r c cols : ℕ) (h : c < cols) :
    (r * cols + c) / cols = r := by
  have hc : 0 < cols := by omega
  rw [Nat.add_comm, Nat.add_mul_div_right _ _ hc, Nat.div_eq_of_lt h,
    Nat.zero_add]

/-- Two cells of width `w` containing a common point coincide. -/
lemma cell_eq_of_mem (a b w px : ℕ) (ha1 : a * w ≤ px) (ha2 : px < a * w + w)
    (hb1 : b * w ≤ px) (hb2 : px < b * w + w) : a = b := by
  have hw : 0 < w := by omega
  have h1 : px / w = a :=
    Nat.div_eq_of_lt_le ha1 (by rw [Nat.add_mul, Nat.one_mul]; omega)
  have h2 : px / w = b :=
    Nat.div_eq_of_lt_le hb1 (by rw [Nat.add_mul, Nat.one_mul]; omega)
  omega

end Mkhls

namespace Mkhls

/-- C7 counterexample: with 7 sampled frames, 6 columns and 1×1 tiles, the
canvas is 6×2 but the in-canvas point (1,1) (column 1 of the second row)
is covered by no placement: the placements do NOT exactly tile the canvas
— a partial final row leaves gaps. The cue interval 1 is positive, so the
claim's hypotheses hold at this input. -/
theorem c7_counterexample :
    (1:ℕ) ≤ 6 ∧ (0:ℚ) < 1 ∧
    1 < mosaicTotalWidth 1 6 ∧
    1 < mosaicTotalHeight 1 (mosaicRows 7 6) ∧
    ¬ (∃ i < 7, inTile 6 1 1 i 1 1) := by
  refine ⟨by decide, by norm_num, by decide, by decide, by decide⟩

/-- C7 (amended): for `cols ≥ 1` and positive tile dimensions, every
placement lies inside the `totalWidth × totalHeight` canvas, distinct
placements never overlap, and the placements exactly cover the canvas when
`columnsPerRow` divides the frame count (a partial final row otherwise
leaves uncovered cells); cue entries are always time-contiguous:
`entry[i].end = entry[i+1].start`, with `start = i * interval` and
`end = start + interval`. -/
theorem c7_tiles_amended (cols tileW tileH n : ℕ)
    (hcols : 1 ≤ cols) (hw : 1 ≤ tileW) (hh : 1 ≤ tileH) :
    (∀ i < n, tileLeft cols tileW i + tileW ≤ mosaicTotalWidth tileW cols ∧
        tileTop cols tileH i + tileH ≤
          mosaicTotalHeight tileH (mosaicRows n cols)) ∧
    (∀ i < n, ∀ j < n, i ≠ j → ∀ px py,
        ¬ (inTile cols tileW tileH i px py ∧ inTile cols tileW tileH j px py)) ∧
    (cols ∣ n → ∀ px < mosaicTotalWidth tileW cols,
        ∀ py < mosaicTotalHeight tileH (mosaicRows n cols),
        ∃ i < n, inTile cols tileW tileH i px py) ∧
    (∀ (interval : ℚ) (i : ℕ),
        cueEnd interval i = cueStart interval (i + 1) ∧
        cueStart interval i = i * interval ∧
        cueEnd interval i = cueStart interval i + interval) := by
  have hc0 : 0 < cols := hcols
  refine ⟨?_, ?_, ?_, ?_⟩
  · -- containment
    intro i hi
    constructor
    · have h1 : i % cols < cols := Nat.mod_lt _ hc0
      calc tileLeft cols tileW i + tileW = (i % cols + 1) * tileW := by
            unfold tileLeft; ring
        _ ≤ cols * tileW := Nat.mul_le_mul_right _ (by omega)
        _ = mosaicTotalWidth tileW cols := Nat.mul_comm _ _
    · have h2 : i / cols < mosaicRows n cols := by
        have hle : i / cols ≤ (n - 1) / cols :=
          Nat.div_le_div_right (by omega)
        have hr : mosaicRows n cols = (n - 1) / cols + 1 := by
          unfold mosaicRows
          have hn : n + cols - 1 = (n - 1) + cols := by omega
          rw [hn, Nat.add_div_right _ hc0]
        omega
      calc tileTop cols tileH i + tileH = (i / cols + 1) * tileH := by
            unfold tileTop; ring
        _ ≤ mosaicRows n cols * tileH := Nat.mul_le_mul_right _ (by omega)
        _ = mosaicTotalHeight tileH (mosaicRows n cols) := Nat.mul_comm _ _
  · -- disjointness
    rintro i _ j _ hij px py ⟨⟨hi1, hi2, hi3, hi4⟩, ⟨hj1, hj2, hj3, hj4⟩⟩
    simp only [tileLeft, tileTop] at hi1 hi2 hi3 hi4 hj1 hj2 hj3 hj4
    have hcol : i % cols = j % cols := cell_eq_of_mem _ _ _ _ hi1 hi2 hj1 hj2
    have hrow : i / cols = j / cols := cell_eq_of_mem _ _ _ _ hi3 hi4 hj3 hj4
    apply hij
    calc i = cols * (i / cols) + i % cols := (Nat.div_add_mod i cols).symm
      _ = cols * (j / cols) + j % cols := by rw [hcol, hrow]
      _ = j := Nat.div_add_mod j cols
  · -- full coverage when cols ∣ n
    rintro ⟨m, hm⟩ px hpx py hpy
    have hw0 : 0 < tileW := hw
    have hh0 : 0 < tileH := hh
    have hrows : mosaicRows n cols = m := by
      unfold mosaicRows
      rw [hm]
      have he : cols * m + cols - 1 = (cols - 1) + cols * m := by omega
      rw [he, Nat.add_mul_div_left _ _ hc0, Nat.div_eq_of_lt (by omega),
        Nat.zero_add]
    have hcl : px / tileW < cols := by
      rw [Nat.div_lt_iff_lt_mul hw0]
      calc px < mosaicTotalWidth tileW cols := hpx
        _ = cols * tileW := Nat.mul_comm _ _
    have hrm : py / tileH < m := by
      rw [Nat.div_lt_iff_lt_mul hh0]
      calc py < mosaicTotalHeight tileH (mosaicRows n cols) := hpy
        _ = mosaicRows n cols * tileH := Nat.mul_comm _ _
        _ = m * tileH := by rw [hrows]
    refine ⟨py / tileH * cols + px / tileW, ?_, ?_, ?_, ?_, ?_⟩
    · calc py / tileH * cols + px / tileW
          < py / tileH * cols + cols := by omega
        _ = (py / tileH + 1) * cols := by ring
        _ ≤ m * cols := Nat.mul_le_mul_right _ (by omega)
        _ = cols * m := Nat.mul_comm _ _
        _ = n := hm.symm
    · unfold tileLeft
      rw [add_mul_mod_eq _ _ _ hcl]
      exact Nat.div_mul_le_self px tileW
    · unfold tileLeft
      rw [add_mul_mod_eq _ _ _ hcl]
      exact lt_div_mul_add px tileW hw0
    · unfold tileTop
      rw [add_mul_div_eq _ _ _ hcl]
      exact Nat.div_mul_le_self py tileH
    · unfold tileTop
      rw [add_mul_div_eq _ _ _ hcl]
      exact lt_div_mul_add py tileH hh0
  · -- cue contiguity
    intro interval i
    refine ⟨?_, rfl, rfl⟩
    unfold cueEnd cueStart
    push_cast
    ring

/-- Witness for `c7_tiles_amended`: 12 frames in 6 columns of 160×90 tiles. -/
theorem c7_tiles_amended_witness :
    ((∀ i < 12, tileLeft 6 160 i + 160 ≤ mosaicTotalWidth 160 6 ∧
        tileTop 6 90 i + 90 ≤ mosaicTotalHeight 90 (mosaicRows 12 6)) ∧
    (∀ i < 12, ∀ j < 12, i ≠ j → ∀ px py,
        ¬ (inTile 6 160 90 i px py ∧ inTile 6 160 90 j px py)) ∧
    ((6:ℕ) ∣ 12 → ∀ px < mosaicTotalWidth 160 6,
        ∀ py < mosaicTotalHeight 90 (mosaicRows 12 6),
        ∃ i < 12, inTile 6 160 90 i px py) ∧
    (∀ (interval : ℚ) (i : ℕ),
        cueEnd interval i = cueStart interval (i + 1) ∧
        cueStart interval i = i * interval ∧
        cueEnd interval i = cueStart interval i + interval)) :=
  c7_tiles_amended 6 160 90 12 (by decide) (by decide) (by decide)

end Mkhls

namespace Mkhls

/-! ## Timestamp conversion (`src/utils/convertTime.js`, `convertTime`) -/

/-- Decimal digits of `n`, fuel-based so the kernel can evaluate
(`n + 1` units of fuel always suffice). -/
def natCharsAux : ℕ → ℕ → List Char
  | 0, _ => []
  | fuel + 1, n =>
    if n < 10 then [Char.ofNat (48 + n)]
    else natCharsAux fuel (n / 10) ++ [Char.ofNat (48 + n % 10)]

/-- The decimal digit characters of a natural number (JS `String(n)`). -/
def natChars (n : ℕ) : List Char := natCharsAux (n + 1) n

/-- JS rendering of an integer-valued number. -/
def intChars (i : ℤ) : List Char :=
  if i < 0 then '-' :: natChars i.natAbs else natChars i.toNat

/-- `String.prototype.padStart(2, '0')`. -/
def padStart2Chars (l : List Char) : List Char :=
  if l.length ≥ 2 then l else List.replicate (2 - l.length) '0' ++ l

/-- Zero-pad to three digits (the digit block of `toFixed(3)`). -/
def pad3Chars (l : List Char) : List Char :=
  if l.length ≥ 3 then l else List.replicate (3 - l.length) '0' ++ l

/-- JS `a % b` (remainder); agrees with the truncating JS semantics on the
nonnegative operands used here. -/
def jsMod (a b : ℚ) : ℚ := a - b * ⌊a / b⌋

/-- `Number.prototype.toFixed(3)` for arguments in `[0, 1)` (the only use
site is `seconds % 1`): round to the nearest thousandth, ties upward; a
fraction at least `0.9995` rounds to the carry form `"1.000"`. -/
def jsToFixed3Chars (q : ℚ) : List Char :=
  let n : ℤ := ⌊q * 1000 + 1 / 2⌋
  if n < 1000 then '0' :: '.' :: pad3Chars (natChars n.toNat)
  else ['1', '.', '0', '0', '0']

/-- JS `String.prototype.replace` with a plain-string pattern: replace only
the first occurrence, return the input unchanged when the pattern is
absent. -/
def jsReplaceFirstChars (pat repl : List Char) : List Char → List Char
  | [] => if pat.isPrefixOf ([] : List Char) then repl else []
  | x :: xs =>
    if pat.isPrefixOf (x :: xs) then repl ++ (x :: xs).drop pat.length
    else x :: jsReplaceFirstChars pat repl xs

/-- JS `String.prototype.split` with a single-character separator. -/
def splitOnChar (c : Char) : List Char → List (List Char)
  | [] => [[]]
  | x :: xs =>
    let r := splitOnChar c xs
    if x = c then [] :: r
    else
      match r with
      | [] => [[x]]
      | y :: ys => (x :: y) :: ys

/-- Value of a digit string. -/
def digitsToNat (l : List Char) : ℕ :=
  l.foldl (fun acc c => acc * 10 + (c.toNat - 48)) 0

/-- JS `Number()` coercion of the numeric-literal strings arising here:
digits with at most one decimal point parse to their value, anything else
(for example a second `.`) is `NaN`, modelled as `none`. -/
def jsParseNumChars (l : List Char) : Option ℚ :=
  match splitOnChar '.' l with
  | [ip] =>
    if ip ≠ [] ∧ ip.all Char.isDigit then some (digitsToNat ip) else none
  | [ip, fp] =>
    if (ip ≠ [] ∨ fp ≠ []) ∧ ip.all Char.isDigit ∧ fp.all Char.isDigit then
      some ((digitsToNat ip : ℚ) + (digitsToNat fp : ℚ) / 10 ^ fp.length)
    else none
  | _ => none

/-- `convertTime.toSeconds(ts)` (`src/utils/convertTime.js` lines 13-26):
a purely numeric string is coerced directly; otherwise the string is split
on `:` and reduced with weights 3600/60/1 by position. `none` models `NaN`. -/
def toSeconds (ts : String) : Option ℚ :=
  if ts.data ≠ [] ∧ ts.data.all (fun c => c.isDigit || c == '.') then
    jsParseNumChars ts.data
  else
    (splitOnChar ':' ts.data).enum.foldl
      (fun total p =>
        match total, jsParseNumChars p.2 with
        | some t, some v =>
          some (t + (if p.1 = 0 then v * 3600 else if p.1 = 1 then v * 60 else v))
        | _, _ => none)
      (some 0)

/-- `convertTime.toTimestamp(seconds)` (`src/utils/convertTime.js` lines
28-45): hours unpadded, minutes/seconds padded to two digits, and the
millisecond block obtained from `(seconds % 1).toFixed(3).replace('0.', '')`. -/
def toTimestamp (seconds : ℚ) : String :=
  let h := ⌊seconds / 3600⌋
  let m := ⌊jsMod seconds 3600 / 60⌋
  let s := ⌊jsMod seconds 60⌋
  let ms := jsReplaceFirstChars ['0', '.'] []
    (jsToFixed3Chars (jsMod seconds 1))
  ⟨intChars h ++ ':' :: padStart2Chars (intChars m) ++ ':' ::
    padStart2Chars (intChars s) ++ '.' :: ms⟩

end Mkhls

namespace Mkhls

/-- C8: the two concrete formattings hold (`toTimestamp 0 = "0:00:00.000"`,
`toTimestamp 3661.5 = "1:01:01.500"`), but the round-trip claim fails: at
`x = 0.9996` the fraction rounds to `toFixed(3) = "1.000"`, which the
`replace('0.', '')` trick leaves intact, producing the malformed timestamp
`"0:00:00.1.000"`; `toSeconds` then yields `NaN` (modelled `none`) instead
of a value within a millisecond of `x`. -/
theorem c8_convertTime_eval :
    toTimestamp 0 = "0:00:00.000" ∧
    toTimestamp (3661.5 : ℚ) = "1:01:01.500" ∧
    toTimestamp (0.9996 : ℚ) = "0:00:00.1.000" ∧
    toSeconds (toTimestamp (0.9996 : ℚ)) = none := by
  have h3 : toTimestamp (0.9996 : ℚ) = "0:00:00.1.000" := by
    simp only [toTimestamp, jsMod, jsToFixed3Chars]
    norm_num
    decide
  refine ⟨?_, ?_, h3, ?_⟩
  · simp only [toTimestamp, jsMod, jsToFixed3Chars]
    norm_num
    decide
  · simp only [toTimestamp, jsMod, jsToFixed3Chars]
    norm_num
    decide
  · rw [h3]
    decide

end Mkhls

namespace Mkhls

/-! ## Transcode driver (`src/lib/ffmpeg.js`, `FFmpeg.start`, lines 101-172) -/

/-- An observable event of the spawned engine process, in arrival order. -/
inductive FFEvent
  | errChunk (s : String)
  | exited (code : ℤ)
deriving Repr, DecidableEq

/-- Settlement of the promise returned by `start()`. -/
inductive Settled
  | resolved (msg : String)
  | rejected (msg : String)
deriving Repr, DecidableEq

/-- JS `String.prototype.includes`: does `pat` occur contiguously? -/
def jsIncludes (pat : List Char) : List Char → Bool
  | [] => pat.isEmpty
  | x :: xs => pat.isPrefixOf (x :: xs) || jsIncludes pat xs

/-- The stderr handler's fatal test: `output.includes('already exists. Exiting.')`. -/
def fatalChunk (s : String) : Bool :=
  jsIncludes "already exists. Exiting.".data s.data

/-- The template literal `` `Process failed with ${ffmpegProcess.stderr}` ``
interpolates the stderr stream handle object itself; its default
stringification is a fixed tag independent of any received chunk content. -/
def stderrObjRepr : String := "[object Object]"

/-- One event-handler dispatch of `FFmpeg.start`: a fatal error chunk
rejects (first settlement wins, later settlements are no-ops); any other
error chunk is relayed to the warning log; exit settles by code. -/
def ffmpegStep (st : Option Settled × List String) (e : FFEvent) :
    Option Settled × List String :=
  match e with
  | .errChunk s =>
    if fatalChunk s then
      ((if st.1.isNone then some (Settled.rejected ("ffmpeg: " ++ s)) else st.1),
        st.2)
    else
      (st.1, st.2 ++ [s])
  | .exited code =>
    if code = 0 then
      ((if st.1.isNone then some (Settled.resolved "[Process completed]")
        else st.1), st.2)
    else
      ((if st.1.isNone then
          some (Settled.rejected ("Process failed with " ++ stderrObjRepr))
        else st.1), st.2)

/-- `FFmpeg.start` over an arrival-ordered event sequence: the final
settlement and the relayed warning lines. -/
def ffmpegStart (events : List FFEvent) : Option Settled × List String :=
  events.foldl ffmpegStep (none, [])

/-- A settled promise stays settled with the same value. -/
lemma ffmpegStep_preserves (e : FFEvent) (st : Option Settled × List String)
    (x : Settled) (h : st.1 = some x) : (ffmpegStep st e).1 = some x := by
  cases e with
  | errChunk s =>
    by_cases hf : fatalChunk s <;> simp [ffmpegStep, hf, h]
  | exited code =>
    by_cases hc : code = 0 <;> simp [ffmpegStep, hc, h]

/-- Settlement is stable under any further events. -/
lemma ffmpegFoldl_preserves (events : List FFEvent)
    (st : Option Settled × List String) (x : Settled) (h : st.1 = some x) :
    (events.foldl ffmpegStep st).1 = some x := by
  induction events generalizing st with
  | nil => exact h
  | cons e rest ih =>
    exact ih _ (ffmpegStep_preserves e st x h)

/-- Non-fatal error chunks only accumulate warnings. -/
lemma ffmpegFoldl_warn (pre : List String)
    (hpre : ∀ w ∈ pre, fatalChunk w = false) (ws : List String) :
    (pre.map FFEvent.errChunk).foldl ffmpegStep (none, ws) = (none, ws ++ pre) := by
  induction pre generalizing ws with
  | nil => simp
  | cons w rest ih =>
    have hw : fatalChunk w = false := hpre w (by simp)
    have hstep : ffmpegStep (none, ws) (FFEvent.errChunk w) = (none, ws ++ [w]) := by
      simp [ffmpegStep, hw]
    simp only [List.map_cons, List.foldl_cons, hstep]
    rw [ih (fun v hv => hpre v (by simp [hv]))]
    simp

end Mkhls

namespace Mkhls

/-- C9 counterexample: a non-fatal stderr chunk `"boom"` followed by a
non-zero exit rejects with the fixed message
`"Process failed with [object Object]"` — the stream handle's
stringification — which neither equals nor contains the captured
error-stream content, contradicting "fails with the captured error-stream
content". -/
theorem c9_counterexample :
    (ffmpegStart [FFEvent.errChunk "boom", FFEvent.exited 1]).1
      = some (Settled.rejected ("Process failed with " ++ stderrObjRepr)) ∧
    jsIncludes "boom".data ("Process failed with " ++ stderrObjRepr).data
      = false ∧
    ("Process failed with " ++ stderrObjRepr)
      ≠ "Process failed with " ++ "boom" := by decide

/-- C9 (amended): with no fatal-pattern line, `start()` resolves exactly
when the engine exits zero, and on a non-zero exit rejects with the fixed
message `"Process failed with [object Object]"` (the stream object's
stringification, not the captured stderr content); every non-fatal
error-stream line is relayed as a warning; a line containing
`"already exists. Exiting."` rejects immediately with that line's content,
and the settlement is unaffected by anything that follows — including the
eventual process exit. -/
theorem c9_driver_amended (pre : List String) (s : String) (c : ℤ)
    (rest : List FFEvent) (hpre : ∀ w ∈ pre, fatalChunk w = false) :
    ((ffmpegStart (pre.map FFEvent.errChunk ++ [FFEvent.exited c])).1
      = some (if c = 0 then Settled.resolved "[Process completed]"
          else Settled.rejected ("Process failed with " ++ stderrObjRepr))) ∧
    ((ffmpegStart (pre.map FFEvent.errChunk ++ [FFEvent.exited c])).2 = pre) ∧
    (fatalChunk s = true →
      (ffmpegStart
          (pre.map FFEvent.errChunk ++ FFEvent.errChunk s :: rest)).1
        = some (Settled.rejected ("ffmpeg: " ++ s))) := by
  have hbase := ffmpegFoldl_warn pre hpre []
  refine ⟨?_, ?_, ?_⟩
  · rw [show ffmpegStart (pre.map FFEvent.errChunk ++ [FFEvent.exited c])
        = [FFEvent.exited c].foldl ffmpegStep
            ((pre.map FFEvent.errChunk).foldl ffmpegStep (none, []))
        from List.foldl_append .., hbase]
    by_cases hc : c = 0 <;> simp [ffmpegStep, hc]
  · rw [show ffmpegStart (pre.map FFEvent.errChunk ++ [FFEvent.exited c])
        = [FFEvent.exited c].foldl ffmpegStep
            ((pre.map FFEvent.errChunk).foldl ffmpegStep (none, []))
        from List.foldl_append .., hbase]
    by_cases hc : c = 0 <;> simp [ffmpegStep, hc]
  · intro hs
    rw [show ffmpegStart (pre.map FFEvent.errChunk ++ FFEvent.errChunk s :: rest)
        = (FFEvent.errChunk s :: rest).foldl ffmpegStep
            ((pre.map FFEvent.errChunk).foldl ffmpegStep (none, []))
        from List.foldl_append .., hbase]
    have hstep : ffmpegStep (none, ([] : List String) ++ pre)
        (FFEvent.errChunk s)
        = (some (Settled.rejected ("ffmpeg: " ++ s)), ([] : List String) ++ pre) := by
      simp [ffmpegStep, hs]
    simp only [List.foldl_cons, hstep]
    exact ffmpegFoldl_preserves rest _ _ rfl

/-- Witness for `c9_driver_amended`: one benign warning line, a fatal
"already exists" line, exit code 1. -/
theorem c9_driver_amended_witness :
    (((ffmpegStart (["frame dropped"].map FFEvent.errChunk
        ++ [FFEvent.exited 1])).1
      = some (if (1:ℤ) = 0 then Settled.resolved "[Process completed]"
          else Settled.rejected ("Process failed with " ++ stderrObjRepr))) ∧
    ((ffmpegStart (["frame dropped"].map FFEvent.errChunk
        ++ [FFEvent.exited 1])).2 = ["frame dropped"]) ∧
    (fatalChunk "Output out/index.m3u8 already exists. Exiting." = true →
      (ffmpegStart (["frame dropped"].map FFEvent.errChunk
          ++ FFEvent.errChunk "Output out/index.m3u8 already exists. Exiting."
            :: [FFEvent.exited 1])).1
        = some (Settled.rejected
            ("ffmpeg: " ++ "Output out/index.m3u8 already exists. Exiting.")))) :=
  c9_driver_amended ["frame dropped"]
    "Output out/index.m3u8 already exists. Exiting." 1 [FFEvent.exited 1]
    (by decide)

end Mkhls

namespace Mkhls

/-! ## Transcode command builder
(`src/bin/mkhls.js`, `processVideo`, lines 165-330, with the argument-list
plumbing of `FFmpeg.addArguments`/`addArgumentSet`, `src/lib/ffmpeg.js`
lines 68-96) -/

/-- `true` iff the string does not start with `-` (every ffmpeg option key
does; no value emitted by the builder may). -/
def noDashB (s : String) : Bool :=
  match s.data with
  | [] => true
  | c :: _ => c != '-'

/-- `String.append` acts by list append on the character data. -/
lemma strData_append (a b : String) : (a ++ b).data = a.data ++ b.data := rfl

lemma noDashB_append {a b : String} (ha : noDashB a = true)
    (hb : noDashB b = true) : noDashB (a ++ b) = true := by
  unfold noDashB at *
  rw [strData_append]
  cases h : a.data with
  | nil => simpa [h] using hb
  | cons c cs => rw [h] at ha; simpa using ha

lemma noDashB_mk (l : List Char) (h : ∀ c ∈ l, c ≠ '-') :
    noDashB ⟨l⟩ = true := by
  unfold noDashB
  cases l with
  | nil => rfl
  | cons c cs => simpa using h c (by simp)

/-- No decimal digit character is a dash. -/
lemma digit_ne_dash : ∀ d, d < 10 → Char.ofNat (48 + d) ≠ '-' := by decide

/-- Every character produced by `natCharsAux` is a decimal digit. -/
lemma natCharsAux_mem :
    ∀ (fuel n : ℕ) (c : Char), c ∈ natCharsAux fuel n →
      ∃ d, d < 10 ∧ c = Char.ofNat (48 + d) := by
  intro fuel
  induction fuel with
  | zero => intro n c hc; simp [natCharsAux] at hc
  | succ fuel ih =>
    intro n c hc
    unfold natCharsAux at hc
    by_cases h : n < 10
    · rw [if_pos h] at hc
      simp at hc
      exact ⟨n, h, hc⟩
    · rw [if_neg h] at hc
      rcases List.mem_append.1 hc with h1 | h2
      · exact ih _ _ h1
      · simp at h2
        exact ⟨n % 10, Nat.mod_lt _ (by omega), h2⟩

lemma noDashB_natChars (n : ℕ) : noDashB ⟨natChars n⟩ = true := by
  refine noDashB_mk _ fun c hc => ?_
  obtain ⟨d, hd, rfl⟩ := natCharsAux_mem _ _ _ hc
  exact digit_ne_dash d hd

lemma noDashB_intChars {i : ℤ} (h : 0 ≤ i) : noDashB ⟨intChars i⟩ = true := by
  unfold intChars
  rw [if_neg (not_lt.2 h)]
  exact noDashB_natChars _

/-- Bounded search for the least `k` with `q * 10^k` integral (the number
of decimal digits of a terminating decimal). -/
def decExpSearch : ℕ → ℕ → ℚ → Option ℕ
  | 0, _, _ => none
  | fuel + 1, k, q =>
    if (q * 10 ^ k).den = 1 then some k else decExpSearch fuel (k + 1) q

/-- Zero-pad a digit block on the left to `k` characters. -/
def padLeftZeros (k : ℕ) (l : List Char) : List Char :=
  List.replicate (k - l.length) '0' ++ l

/-- JS `String(x)` for a number: a terminating decimal is printed with its
minimal digits (matching JS for every exactly-representable value used
here); the `'~'`-marked fallback for a non-terminating expansion — which no
JS double can hold exactly — is never relied upon by any theorem. -/
def jsNumChars (q : ℚ) : List Char :=
  match decExpSearch 40 0 q with
  | some 0 => intChars q.num
  | some (k + 1) =>
    let n := (q * 10 ^ (k + 1)).num.natAbs
    (if q < 0 then ['-'] else []) ++ natChars (n / 10 ^ (k + 1)) ++
      '.' :: padLeftZeros (k + 1) (natChars (n % 10 ^ (k + 1)))
  | none => '~' :: intChars ⌊q⌋

lemma noDashB_jsNumChars {q : ℚ} (h : 0 ≤ q) :
    noDashB ⟨jsNumChars q⟩ = true := by
  unfold jsNumChars
  cases hs : decExpSearch 40 0 q with
  | none => simp [noDashB]
  | some k =>
    cases k with
    | zero =>
      have : (0:ℤ) ≤ q.num := Rat.num_nonneg.2 h
      exact noDashB_intChars this
    | succ k =>
      rw [if_neg (not_lt.2 h)]
      have h1 : noDashB ⟨natChars ((q * 10 ^ (k + 1)).num.natAbs / 10 ^ (k + 1))⟩
          = true := noDashB_natChars _
      have h2 : noDashB ⟨'.' :: padLeftZeros (k + 1)
          (natChars ((q * 10 ^ (k + 1)).num.natAbs % 10 ^ (k + 1)))⟩ = true := by
        simp [noDashB]
      simpa using noDashB_append h1 h2

/-- `Number.prototype.toFixed()` (zero digits): round to the nearest
integer, ties away from zero; equals half-up on the nonnegative values
used here. -/
def jsToFixed0Chars (q : ℚ) : List Char := intChars ⌊q + 1 / 2⌋

/-- Node `path.join` of two segments (no normalization edge cases arise
for the paths built here). -/
def pathJoin (a b : String) : String := a ++ "/" ++ b

/-- The characters before the last `/`, when a `/` exists. -/
def dirnameAux : List Char → Option (List Char)
  | [] => none
  | c :: cs =>
    match dirnameAux cs with
    | some d => some (c :: d)
    | none => if c = '/' then some [] else none

/-- Node `path.dirname` (the cases exercised here: a path with at least one
separator yields everything before the last one). -/
def jsDirname (s : String) : String :=
  match dirnameAux s.data with
  | some [] => "/"
  | some d => ⟨d⟩
  | none => "."

/-- JS `Array.prototype.join(sep)`. -/
def jsJoinSep (sep : String) : List String → String
  | [] => ""
  | [x] => x
  | x :: xs => x ++ sep ++ jsJoinSep sep xs

/-- JS `String.prototype.replace` with a plain pattern (first occurrence
only), on `String`. -/
def jsReplaceFirst (s pat repl : String) : String :=
  ⟨jsReplaceFirstChars pat.data repl.data s.data⟩

/-- `String(v)` of a possibly-`undefined` string value. -/
def jsStrOfOptStr : Option String → String
  | some s => s
  | none => "undefined"

/-- Template rendering of a possibly-`NaN` numeric value. -/
def jsStrOfOptNum : Option ℚ → String
  | some q => ⟨jsNumChars q⟩
  | none => "NaN"

/-- `FFmpeg.addArgumentSet`: each `key: value` pair contributes
`['-key', String(value)]` (no boolean-valued options occur in
`processVideo`). -/
def argSet (pairs : List (String × String)) : List String :=
  pairs.flatMap fun p => ["-" ++ p.1, p.2]

end Mkhls

namespace Mkhls

/-- The selected video stream fields the builder reads. -/
structure VideoStream where
  index : ℕ
deriving Repr, DecidableEq

/-- The selected audio stream fields the builder reads. -/
structure AudioStream where
  index : ℕ
  sample_rate : ℕ
deriving Repr, DecidableEq

/-- The shorthand globals destructured in `processVideo`:
`$FORMAT.duration`, `$FRAME_COUNT`, `$FPS`, `$VIDEO`, `$AUDIO`. -/
structure Globals where
  duration : ℚ
  frameCount : ℚ
  fps : ℚ
  video : Option VideoStream
  audio : Option AudioStream

/-- The `cli.opts` fields read by `processVideo`. -/
structure CliOpts where
  fallback : Bool
  hls : Bool
  timelinePreviews : Bool
  videoPixelFormat : String
  videoCodec : String
  audioProfile : String
  audioCodec : String
  audioBitrate : ℚ
  hlsInterval : ℚ
  hlsType : String
  hlsSegmentName : String
  hlsRootPlaylistName : String
  timelinePreviewTileHeight : ℚ
  previewTunables : PreviewOpts

/-- The per-file paths computed by `setup`. -/
structure Paths where
  source : String
  tmp : String
  output : String

/-- A JS `$VIDEO.index`-style dereference: `undefined` raises. -/
def expectVideo (g : Globals) : Except String VideoStream :=
  match g.video with
  | some v => Except.ok v
  | none => Except.error "TypeError: Cannot read properties of undefined"

/-- A JS `$AUDIO.index`-style dereference: `undefined` raises. -/
def expectAudio (g : Globals) : Except String AudioStream :=
  match g.audio with
  | some a => Except.ok a
  | none => Except.error "TypeError: Cannot read properties of undefined"

/-- The per-rendition option group emitted by the `forEach` at lines
266-284: filter/profile/level/bitrate/maxrate/bufsize keyed by the
rendition index, plus the per-variant audio group when audio exists. -/
def hlsRenditionArgs (o : CliOpts) (g : Globals) (v : VideoStream)
    (index : ℕ) (r : Rendition) : List String :=
  argSet [
    ("map", "0:" ++ ⟨natChars v.index⟩),
    ("filter:v:" ++ ⟨natChars index⟩,
      "scale=-2:" ++ ⟨natChars r.height⟩ ++ ",format=" ++ o.videoPixelFormat),
    ("profile:v:" ++ ⟨natChars index⟩, jsStrOfOptStr r.profile),
    ("level:v:" ++ ⟨natChars index⟩, jsStrOfOptStr r.level),
    ("b:v:" ++ ⟨natChars index⟩, jsStrOfOptNum r.bitrate ++ "k"),
    ("maxrate:v:" ++ ⟨natChars index⟩, jsStrOfOptNum r.bitrate ++ "k"),
    ("bufsize:v:" ++ ⟨natChars index⟩,
      jsStrOfOptNum (r.bitrate.map (· * 1.5)) ++ "k")] ++
  (match g.audio with
   | some a => argSet [
      ("map", "0:" ++ ⟨natChars a.index⟩),
      ("profile:a:" ++ ⟨natChars index⟩, o.audioProfile),
      ("b:a:" ++ ⟨natChars index⟩, ⟨jsNumChars o.audioBitrate⟩ ++ "k")]
   | none => [])

/-- The `var_stream_map` value (lines 287-299): per rendition, the present
stream selectors and the `name:<height>p` label, comma-joined, then
space-joined across renditions. -/
def varStreamMap (g : Globals) (plan : List Rendition) : String :=
  jsJoinSep " " (plan.enum.map fun p =>
    jsJoinSep "," (([
      (match g.video with
       | some _ => some ("v:" ++ (⟨natChars p.1⟩ : String))
       | none => none),
      (match g.audio with
       | some _ => some ("a:" ++ (⟨natChars p.1⟩ : String))
       | none => none),
      some ("name:" ++ (⟨natChars p.2.height⟩ : String) ++ "p")] :
        List (Option String)).filterMap id))

/-- The poster-frame output section (lines 174-185), emitted when no
poster was found on disk; dereferences `$VIDEO.index` unconditionally. -/
def posterArgs (g : Globals) (paths : Paths) : Except String (List String) := do
  let v ← expectVideo g
  pure (argSet [
    ("f", "image2"),
    ("map", "0:" ++ (⟨natChars v.index⟩ : String)),
    ("ss", (⟨jsNumChars (g.duration * (5 / 100))⟩ : String)),
    ("frames:v", "1"),
    ("update", "1")] ++ [pathJoin paths.tmp "poster.png"])

/-- The progressive-fallback output section (lines 187-227): a capped mp4
for sources with video (audio options only when audio exists), otherwise an
mp3 option set whose output path the source accidentally drops (it is
passed as a second argument to the one-parameter `addArgumentSet`). -/
def fallbackArgs (o : CliOpts) (g : Globals) (paths : Paths) :
    Except String (List String) :=
  match g.video with
  | some v =>
    let base := argSet [
      ("f", "mp4"),
      ("map", "0:" ++ (⟨natChars v.index⟩ : String)),
      ("vf", "scale=-2:\x27min(720,ih)\x27" ++ "," ++
        ("format=" ++ o.videoPixelFormat)),
      ("codec:v", "libx264"),
      ("profile:v", "main"),
      ("level:v", (⟨jsNumChars (3.1 : ℚ)⟩ : String)),
      ("b:v", "2000k"),
      ("maxrate:v", "2000k"),
      ("bufsize:v", "3000k")]
    let base :=
      match g.audio with
      | some a => base ++ argSet [
          ("map", "0:" ++ (⟨natChars a.index⟩ : String)),
          ("profile:a", o.audioProfile),
          ("codec:a", o.audioCodec),
          ("ar", (⟨natChars a.sample_rate⟩ : String)),
          ("b:a", "96k")]
      | none => base
    Except.ok (base ++ ["-movflags", "+faststart",
      pathJoin paths.output "progressive.mp4"])
  | none => do
    let a ← expectAudio g
    pure (argSet [
      ("f", "mp3"),
      ("map", "0:" ++ (⟨natChars a.index⟩ : String)),
      ("codec:a", "libmp3lame"),
      ("b:a", (⟨jsNumChars o.audioBitrate⟩ : String) ++ "k")])

/-- The templated HLS segment name with `{stream}`/`{index}` replaced by
`%v`/`%04d` (lines 233-235). -/
def hlsSegName (o : CliOpts) : String :=
  jsReplaceFirst (jsReplaceFirst o.hlsSegmentName "{stream}" "%v")
    "{index}" "%04d"

/-- The HLS output section (lines 229-305): format, stream codec sets,
segmenting options, one option group per rendition, the variant stream
map, and the `index.m3u8` output path. -/
def hlsArgs (o : CliOpts) (g : Globals) (paths : Paths)
    (plan : List Rendition) : List String :=
  let hlsKeyDistance : String := ⟨jsToFixed0Chars (g.fps * o.hlsInterval)⟩
  let hlsSegmentExtension :=
    if o.hlsType = "mpegts" then "ts"
    else if o.hlsType = "fmp4" then "m4s" else "undefined"
  let hlsSegmentPath := pathJoin paths.output (hlsSegName o)
  (["-f", "hls"] ++
    (match g.video with
     | some _ => argSet [
        ("c:v", o.videoCodec),
        ("g", hlsKeyDistance),
        ("keyint_min", hlsKeyDistance)]
     | none => []) ++
    (match g.audio with
     | some a => argSet [
        ("c:a", o.audioCodec),
        ("ar", (⟨natChars a.sample_rate⟩ : String))]
     | none => []) ++
    argSet [
      ("hls_playlist_type", "vod"),
      ("hls_segment_type", o.hlsType),
      ("hls_time", (⟨jsNumChars o.hlsInterval⟩ : String)),
      ("hls_list_size", (⟨jsNumChars (0 : ℚ)⟩ : String)),
      ("master_pl_name", o.hlsRootPlaylistName),
      ("hls_segment_filename", hlsSegmentPath ++ "." ++ hlsSegmentExtension)] ++
    (match g.video with
     | some v => plan.enum.flatMap fun p => hlsRenditionArgs o g v p.1 p.2
     | none => []) ++
    argSet [("var_stream_map", varStreamMap g plan)]) ++
  [pathJoin (jsDirname hlsSegmentPath) "index.m3u8"]

/-- The timeline-preview extraction section (lines 307-326); dereferences
`$VIDEO.index` unconditionally. -/
def previewArgs (o : CliOpts) (g : Globals) (paths : Paths) :
    Except String (List String) := do
  let mosaic := getTimelinePreviewSpecs o.previewTunables g.duration
  let v ← expectVideo g
  pure (argSet [
    ("f", "image2"),
    ("map", "0:" ++ (⟨natChars v.index⟩ : String)),
    ("c:v", "png"),
    ("filter:v", "scale=-2:" ++
      (⟨jsNumChars o.timelinePreviewTileHeight⟩ : String) ++
      ",select=\x27not(mod(\\n," ++
      (⟨intChars ⌈g.frameCount / mosaic.frames⌉⟩ : String) ++ "))\x27"),
    ("fps_mode", "passthrough")] ++ [pathJoin paths.tmp "seek_%04d.png"])

/-- Embedding of `processVideo` (`src/bin/mkhls.js` lines 165-329): the
argument list accumulated onto `args0` (the transcoder state `setup`
leaves, normally `["-y"]`), assembled section by section in source order.
`Except.error` models the runtime `TypeError` raised when a section
dereferences an absent `$VIDEO`/`$AUDIO`. The final `transcoder.start()`
is the driver's concern (`ffmpegStart`), not the builder's. -/
def processVideoArgs (o : CliOpts) (g : Globals) (paths : Paths)
    (poster : Option String) (plan : List Rendition) (args0 : List String) :
    Except String (List String) := do
  let args := args0 ++ ["-i", paths.source]
  let args ←
    if poster.isNone then do
      let c ← posterArgs g paths
      pure (args ++ c)
    else pure args
  let args ←
    if o.fallback then do
      let c ← fallbackArgs o g paths
      pure (args ++ c)
    else pure args
  let args := if o.hls then args ++ hlsArgs o g paths plan else args
  let args ←
    if o.timelinePreviews then do
      let c ← previewArgs o g paths
      pure (args ++ c)
    else pure args
  pure args

end Mkhls

namespace Mkhls

/-- `processImages` sizes the poster with `transcoder.resolutions[0].height`
(`src/bin/mkhls.js` line 340); with an empty rendition list this
dereferences `undefined`. -/
def posterResizeHeight (plan : List Rendition) : Except String ℕ :=
  match plan.head? with
  | some r => Except.ok r.height
  | none => Except.error
      "TypeError: Cannot read properties of undefined (reading \x27height\x27)"

end Mkhls

namespace Mkhls

/-- C6: with HLS requested, a video stream present and an EMPTY rendition
plan, the builder does NOT reject: it returns a complete argument list that
still declares the HLS output — with an empty `var_stream_map` — and the
per-file processing only fails later (the engine balks at the malformed
invocation, or `processImages` hits a TypeError reading
`resolutions[0].height`). The spec requires a fail-fast planning error
here. -/
theorem c6_empty_plan_no_reject (o : CliOpts) (g : Globals) (paths : Paths)
    (p : String) (v : VideoStream) (args0 : List String)
    (hv : g.video = some v) (hhls : o.hls = true) (hfb : o.fallback = false)
    (htp : o.timelinePreviews = false) :
    processVideoArgs o g paths (some p) [] args0
      = Except.ok (args0 ++ ["-i", paths.source] ++ hlsArgs o g paths []) ∧
    (∃ pre, hlsArgs o g paths [] = (pre ++ ["-var_stream_map", ""]) ++
      [pathJoin (jsDirname (pathJoin paths.output (hlsSegName o)))
        "index.m3u8"]) ∧
    varStreamMap g [] = "" ∧
    posterResizeHeight [] = Except.error
      "TypeError: Cannot read properties of undefined (reading \x27height\x27)" := by
  refine ⟨?_, ?_, rfl, rfl⟩
  · simp only [processVideoArgs, hhls, hfb, htp, Option.isNone_some,
      Bool.false_eq_true, if_false, if_true, pure_bind, ite_true, ite_false]
    rfl
  · simp only [hlsArgs, varStreamMap, List.enum, List.enumFrom,
      List.map_nil, jsJoinSep, argSet, List.flatMap_cons, List.flatMap_nil,
      List.append_nil]
    exact ⟨_, rfl⟩

/-- Witness for `c6_empty_plan_no_reject` at a concrete configuration. -/
theorem c6_empty_plan_no_reject_witness :
    (processVideoArgs
        ⟨false, true, false, "yuv420p", "libx264", "aac_low", "aac", 256, 4,
          "mpegts", "{stream}/segment_{index}", "manifest.m3u8", 144,
          ⟨1, 10, 180⟩⟩
        ⟨120, 3600, 30, some ⟨0⟩, some ⟨1, 48000⟩⟩
        ⟨"in/video.mp4", "out/_tmp", "out"⟩ (some "poster.jpg") [] ["-y"]
      = Except.ok (["-y"] ++ ["-i", "in/video.mp4"] ++
          hlsArgs
            ⟨false, true, false, "yuv420p", "libx264", "aac_low", "aac", 256,
              4, "mpegts", "{stream}/segment_{index}", "manifest.m3u8", 144,
              ⟨1, 10, 180⟩⟩
            ⟨120, 3600, 30, some ⟨0⟩, some ⟨1, 48000⟩⟩
            ⟨"in/video.mp4", "out/_tmp", "out"⟩ []) ∧
    (∃ pre, hlsArgs
        ⟨false, true, false, "yuv420p", "libx264", "aac_low", "aac", 256, 4,
          "mpegts", "{stream}/segment_{index}", "manifest.m3u8", 144,
          ⟨1, 10, 180⟩⟩
        ⟨120, 3600, 30, some ⟨0⟩, some ⟨1, 48000⟩⟩
        ⟨"in/video.mp4", "out/_tmp", "out"⟩ []
      = (pre ++ ["-var_stream_map", ""]) ++
        [pathJoin (jsDirname (pathJoin "out" (hlsSegName
          ⟨false, true, false, "yuv420p", "libx264", "aac_low", "aac", 256, 4,
            "mpegts", "{stream}/segment_{index}", "manifest.m3u8", 144,
            ⟨1, 10, 180⟩⟩))) "index.m3u8"]) ∧
    varStreamMap ⟨120, 3600, 30, some ⟨0⟩, some ⟨1, 48000⟩⟩ [] = "" ∧
    posterResizeHeight [] = Except.error
      "TypeError: Cannot read properties of undefined (reading \x27height\x27)") :=
  c6_empty_plan_no_reject
    ⟨false, true, false, "yuv420p", "libx264", "aac_low", "aac", 256, 4,
      "mpegts", "{stream}/segment_{index}", "manifest.m3u8", 144, ⟨1, 10, 180⟩⟩
    ⟨120, 3600, 30, some ⟨0⟩, some ⟨1, 48000⟩⟩
    ⟨"in/video.mp4", "out/_tmp", "out"⟩ "poster.jpg" ⟨0⟩ ["-y"]
    rfl rfl rfl rfl

end Mkhls

namespace Mkhls

/-- Every option key starts with a dash. -/
lemma noDashB_dashKey (k : String) : noDashB ("-" ++ k) = false := rfl

/-- Counting a dash-initial token is unaffected by dropping the non-dash
elements. -/
lemma count_dash_filter (t : String) (ht : noDashB t = false)
    (l : List String) :
    l.count t = (l.filter fun s => !noDashB s).count t := by
  induction l with
  | nil => rfl
  | cons x xs ih =>
    by_cases hx : noDashB x = true
    · have hxt : ¬ (x == t) = true := by
        simp only [beq_iff_eq]
        intro he; rw [he, ht] at hx; exact Bool.false_ne_true hx
      simp [List.count_cons, List.filter_cons, hx, hxt, ih]
    · have hx' : noDashB x = false := by
        cases h : noDashB x
        · rfl
        · exact absurd h hx
      simp [List.count_cons, List.filter_cons, hx', ih]

/-- Counting matches of a dash-initial prefix is likewise unaffected. -/
lemma countP_dash_filter (p : String) (c : Char) (cs : List Char)
    (hp : p.data = '-' :: cs) (l : List String) :
    l.countP (fun s => p.data.isPrefixOf s.data)
      = (l.filter fun s => !noDashB s).countP
          (fun s => p.data.isPrefixOf s.data) := by
  induction l with
  | nil => rfl
  | cons x xs ih =>
    by_cases hx : noDashB x = true
    · have hxt : ¬ (p.data.isPrefixOf x.data) = true := by
        intro he
        have hpre : p.data <+: x.data := by
          simpa [List.isPrefixOf_iff_prefix] using he
        obtain ⟨m, hm⟩ := hpre
        rw [hp] at hm
        unfold noDashB at hx
        rw [← hm] at hx
        simp at hx
      simp [List.countP_cons, List.filter_cons, hx, hxt, ih]
    · have hx' : noDashB x = false := by
        cases h : noDashB x
        · rfl
        · exact absurd h hx
      simp [List.countP_cons, List.filter_cons, hx', ih]

/-- Dropping the non-dash elements of an option set leaves exactly the
keys, provided every value is dash-free. -/
lemma filter_argSet (pairs : List (String × String))
    (hv : ∀ kv ∈ pairs, noDashB kv.2 = true) :
    (argSet pairs).filter (fun s => !noDashB s)
      = pairs.map fun kv => "-" ++ kv.1 := by
  induction pairs with
  | nil => rfl
  | cons kv rest ih =>
    have h1 : noDashB kv.2 = true := hv kv (by simp)
    simp [argSet, List.filter_cons, noDashB_dashKey, h1]
    simpa [argSet] using ih fun x hx => hv x (by simp [hx])

/-- A string extending a non-prefix stays distinct. -/
lemma append_ne_of_not_pre (p x t : String)
    (h : p.data.isPrefixOf t.data = false) : p ++ x ≠ t := by
  intro he
  have hd : p.data ++ x.data = t.data := by rw [← strData_append, he]
  have : p.data.isPrefixOf t.data = true := by
    rw [← hd]
    simp [List.isPrefixOf_iff_prefix]
  rw [h] at this
  exact Bool.false_ne_true this

/-- A prefix test against `lit ++ m` fails whenever neither of `p`, `lit`
is a prefix of the other. -/
lemma isPrefixOf_append_false (p lit m : List Char)
    (h1 : p.isPrefixOf lit = false) (h2 : lit.isPrefixOf p = false) :
    p.isPrefixOf (lit ++ m) = false := by
  cases h : p.isPrefixOf (lit ++ m) with
  | false => rfl
  | true =>
    exfalso
    have hpre : p <+: lit ++ m := by
      simpa [List.isPrefixOf_iff_prefix] using h
    rcases le_total p.length lit.length with hle | hle
    · have : p <+: lit :=
        List.prefix_of_prefix_length_le hpre (List.prefix_append lit m) hle
      rw [(by simpa [List.isPrefixOf_iff_prefix] using this : p.isPrefixOf lit = true)] at h1
      exact absurd h1 (by simp)
    · have : lit <+: p :=
        List.prefix_of_prefix_length_le (List.prefix_append lit m) hpre hle
      rw [(by simpa [List.isPrefixOf_iff_prefix] using this : lit.isPrefixOf p = true)] at h2
      exact absurd h2 (by simp)

/-- A list is a prefix of itself extended. -/
lemma isPrefixOf_self_append (p m : List Char) :
    p.isPrefixOf (p ++ m) = true := by
  simp [List.isPrefixOf_iff_prefix]

end Mkhls

namespace Mkhls

/-- The keys of one per-rendition option group (audio present). -/
def renditionKeys (index : ℕ) : List String :=
  ["-map", "-filter:v:" ++ (⟨natChars index⟩ : String),
   "-profile:v:" ++ (⟨natChars index⟩ : String),
   "-level:v:" ++ (⟨natChars index⟩ : String),
   "-b:v:" ++ (⟨natChars index⟩ : String),
   "-maxrate:v:" ++ (⟨natChars index⟩ : String),
   "-bufsize:v:" ++ (⟨natChars index⟩ : String),
   "-map", "-profile:a:" ++ (⟨natChars index⟩ : String),
   "-b:a:" ++ (⟨natChars index⟩ : String)]

/-- Cleanliness of the builder inputs: no configured string value may
itself look like an option key (start with `-`), and the numeric inputs
rendered into values are nonnegative (as all real probe/CLI data is). -/
def CleanInputs (o : CliOpts) (g : Globals) (paths : Paths)
    (plan : List Rendition) : Prop :=
  noDashB paths.source = true ∧ noDashB paths.tmp = true ∧
  noDashB paths.output = true ∧
  noDashB o.videoPixelFormat = true ∧ noDashB o.videoCodec = true ∧
  noDashB o.audioProfile = true ∧ noDashB o.audioCodec = true ∧
  noDashB o.hlsType = true ∧ noDashB o.hlsRootPlaylistName = true ∧
  0 ≤ o.audioBitrate ∧ 0 ≤ o.hlsInterval ∧ 0 ≤ g.fps ∧ 0 ≤ g.duration ∧
  (∀ r ∈ plan, (∀ s, r.profile = some s → noDashB s = true) ∧
    (∀ s, r.level = some s → noDashB s = true) ∧
    (∀ b, r.bitrate = some b → 0 ≤ b))

/-- Dropping non-dash elements of the per-rendition groups leaves exactly
the per-rendition keys. -/
lemma filter_renditionArgs (o : CliOpts) (g : Globals) (v : VideoStream)
    (a : AudioStream) (ha : g.audio = some a)
    (hpf : noDashB o.videoPixelFormat = true)
    (hap : noDashB o.audioProfile = true) (hab : 0 ≤ o.audioBitrate)
    (plan : List Rendition)
    (hplan : ∀ r ∈ plan, (∀ s, r.profile = some s → noDashB s = true) ∧
      (∀ s, r.level = some s → noDashB s = true) ∧
      (∀ b, r.bitrate = some b → 0 ≤ b)) :
    ∀ k, (((List.enumFrom k plan).flatMap fun p =>
        hlsRenditionArgs o g v p.1 p.2).filter fun s => !noDashB s)
      = (List.enumFrom k plan).flatMap fun p => renditionKeys p.1 := by
  intro k
  induction plan generalizing k with
  | nil => rfl
  | cons r rest ih =>
    obtain ⟨hrp, hrl, hrb⟩ := hplan r (by simp)
    have hprofile : noDashB (jsStrOfOptStr r.profile) = true := by
      cases hp : r.profile with
      | none => decide
      | some s => exact hrp s hp
    have hlevel : noDashB (jsStrOfOptStr r.level) = true := by
      cases hp : r.level with
      | none => decide
      | some s => exact hrl s hp
    have hbit : noDashB (jsStrOfOptNum r.bitrate ++ "k") = true := by
      cases hb : r.bitrate with
      | none => decide
      | some b =>
        have hnd : noDashB ⟨jsNumChars b⟩ = true :=
          noDashB_jsNumChars (hrb b hb)
        exact noDashB_append (by simpa [jsStrOfOptNum] using hnd) (by decide)
    have hbuf : noDashB (jsStrOfOptNum (r.bitrate.map (· * 1.5)) ++ "k")
        = true := by
      cases hb : r.bitrate with
      | none => decide
      | some b =>
        have h15 : (0:ℚ) ≤ b * 1.5 := by nlinarith [hrb b hb]
        have hnd : noDashB ⟨jsNumChars (b * 1.5)⟩ = true :=
          noDashB_jsNumChars h15
        exact noDashB_append
          (by simpa [jsStrOfOptNum, Option.map] using hnd) (by decide)
    have hmapv : noDashB ("0:" ++ (⟨natChars v.index⟩ : String)) = true :=
      noDashB_append (by decide) (noDashB_natChars _)
    have hmapa : noDashB ("0:" ++ (⟨natChars a.index⟩ : String)) = true :=
      noDashB_append (by decide) (noDashB_natChars _)
    have hscale : noDashB ("scale=-2:" ++ (⟨natChars r.height⟩ : String) ++
        ",format=" ++ o.videoPixelFormat) = true :=
      noDashB_append (noDashB_append (noDashB_append (by decide)
        (noDashB_natChars _)) (by decide)) hpf
    have hba : noDashB ((⟨jsNumChars o.audioBitrate⟩ : String) ++ "k")
        = true := noDashB_append (noDashB_jsNumChars hab) (by decide)
    have hgroup : (hlsRenditionArgs o g v k r).filter (fun s => !noDashB s)
        = renditionKeys k := by
      unfold hlsRenditionArgs
      rw [ha, List.filter_append,
        filter_argSet _ (by
          intro kv hkv
          simp at hkv
          rcases hkv with h | h | h | h | h | h | h <;> subst h
          · exact hmapv
          · exact hscale
          · exact hprofile
          · exact hlevel
          · exact hbit
          · exact hbit
          · exact hbuf),
        filter_argSet _ (by
          intro kv hkv
          simp at hkv
          rcases hkv with h | h | h <;> subst h
          · exact hmapa
          · exact hap
          · exact hba)]
      rfl
    simp only [List.enumFrom_cons, List.flatMap_cons, List.filter_append, hgroup]
    rw [ih (fun x hx => hplan x (by simp [hx])) (k + 1)]

end Mkhls

namespace Mkhls

/-- A token that is none of the per-rendition key shapes never occurs among
the rendition keys. -/
lemma renditionKeys_count (t : String) (hmap : ("-map" : String) ≠ t)
    (hfil : "-filter:v:".data.isPrefixOf t.data = false)
    (hpro : "-profile:v:".data.isPrefixOf t.data = false)
    (hlev : "-level:v:".data.isPrefixOf t.data = false)
    (hbv : "-b:v:".data.isPrefixOf t.data = false)
    (hmax : "-maxrate:v:".data.isPrefixOf t.data = false)
    (hbuf : "-bufsize:v:".data.isPrefixOf t.data = false)
    (hpa : "-profile:a:".data.isPrefixOf t.data = false)
    (hba : "-b:a:".data.isPrefixOf t.data = false) :
    ∀ (k : ℕ) (plan : List Rendition),
      (((List.enumFrom k plan).flatMap fun p => renditionKeys p.1)).count t
        = 0 := by
  intro k plan
  induction plan generalizing k with
  | nil => rfl
  | cons r rest ih =>
    have h2 := append_ne_of_not_pre "-filter:v:" ⟨natChars k⟩ t hfil
    have h3 := append_ne_of_not_pre "-profile:v:" ⟨natChars k⟩ t hpro
    have h4 := append_ne_of_not_pre "-level:v:" ⟨natChars k⟩ t hlev
    have h5 := append_ne_of_not_pre "-b:v:" ⟨natChars k⟩ t hbv
    have h6 := append_ne_of_not_pre "-maxrate:v:" ⟨natChars k⟩ t hmax
    have h7 := append_ne_of_not_pre "-bufsize:v:" ⟨natChars k⟩ t hbuf
    have h8 := append_ne_of_not_pre "-profile:a:" ⟨natChars k⟩ t hpa
    have h9 := append_ne_of_not_pre "-b:a:" ⟨natChars k⟩ t hba
    simp only [List.enumFrom_cons, List.flatMap_cons, List.count_append,
      ih (k + 1)]
    simp [renditionKeys, List.count_cons, hmap, h2, h3, h4, h5, h6, h7, h8, h9]

/-- Exactly one `-filter:v:<index>` key occurs per rendition. -/
lemma renditionKeys_countPre :
    ∀ (k : ℕ) (plan : List Rendition),
      (((List.enumFrom k plan).flatMap fun p => renditionKeys p.1)).countP
        (fun s => "-filter:v:".data.isPrefixOf s.data) = plan.length := by
  intro k plan
  induction plan generalizing k with
  | nil => rfl
  | cons r rest ih =>
    have e2 : "-filter:v:".data.isPrefixOf
        (("-filter:v:" ++ (⟨natChars k⟩ : String)).data) = true := by
      rw [strData_append]
      exact isPrefixOf_self_append _ _
    have e3 : "-filter:v:".data.isPrefixOf
        (("-profile:v:" ++ (⟨natChars k⟩ : String)).data) = false := by
      rw [strData_append]
      exact isPrefixOf_append_false _ _ _ (by decide) (by decide)
    have e4 : "-filter:v:".data.isPrefixOf
        (("-level:v:" ++ (⟨natChars k⟩ : String)).data) = false := by
      rw [strData_append]
      exact isPrefixOf_append_false _ _ _ (by decide) (by decide)
    have e5 : "-filter:v:".data.isPrefixOf
        (("-b:v:" ++ (⟨natChars k⟩ : String)).data) = false := by
      rw [strData_append]
      exact isPrefixOf_append_false _ _ _ (by decide) (by decide)
    have e6 : "-filter:v:".data.isPrefixOf
        (("-maxrate:v:" ++ (⟨natChars k⟩ : String)).data) = false := by
      rw [strData_append]
      exact isPrefixOf_append_false _ _ _ (by decide) (by decide)
    have e7 : "-filter:v:".data.isPrefixOf
        (("-bufsize:v:" ++ (⟨natChars k⟩ : String)).data) = false := by
      rw [strData_append]
      exact isPrefixOf_append_false _ _ _ (by decide) (by decide)
    have e8 : "-filter:v:".data.isPrefixOf
        (("-profile:a:" ++ (⟨natChars k⟩ : String)).data) = false := by
      rw [strData_append]
      exact isPrefixOf_append_false _ _ _ (by decide) (by decide)
    have e9 : "-filter:v:".data.isPrefixOf
        (("-b:a:" ++ (⟨natChars k⟩ : String)).data) = false := by
      rw [strData_append]
      exact isPrefixOf_append_false _ _ _ (by decide) (by decide)
    simp only [List.enumFrom_cons, List.flatMap_cons, List.countP_append,
      ih (k + 1)]
    simp [renditionKeys, List.countP_cons, e2, e3, e4, e5, e6, e7, e8, e9]
    omega

end Mkhls

namespace Mkhls

/-- Nonempty dash-free head makes the tail irrelevant. -/
lemma noDashB_append_left (a b : String) (ha : noDashB a = true)
    (hne : a.data ≠ []) : noDashB (a ++ b) = true := by
  unfold noDashB at *
  rw [strData_append]
  cases h : a.data with
  | nil => exact absurd h hne
  | cons c cs => rw [h] at ha; simpa using ha

/-- `path.join` keeps a dash-free head. -/
lemma noDashB_pathJoin (a b : String) (ha : noDashB a = true) :
    noDashB (pathJoin a b) = true := by
  unfold pathJoin
  exact noDashB_append_left _ _ (noDashB_append ha (by decide))
    (by simp [strData_append])

/-- `Array.join` of dash-free strings is dash-free. -/
lemma noDashB_jsJoinSep (sep : String) (hsep : noDashB sep = true)
    (l : List String) (hl : ∀ x ∈ l, noDashB x = true) :
    noDashB (jsJoinSep sep l) = true := by
  induction l with
  | nil => rfl
  | cons x xs ih =>
    cases xs with
    | nil => exact hl x (by simp)
    | cons y ys =>
      show noDashB (x ++ sep ++ jsJoinSep sep (y :: ys)) = true
      exact noDashB_append (noDashB_append (hl x (by simp)) hsep)
        (ih fun z hz => hl z (by simp at hz ⊢; tauto))

/-- The head character survives `path.dirname`. -/
lemma dirnameAux_shape (x : Char) (xs : List Char) (d : List Char)
    (h : dirnameAux (x :: xs) = some d) : d = [] ∨ ∃ ds, d = x :: ds := by
  unfold dirnameAux at h
  cases hh : dirnameAux xs with
  | some d' => rw [hh] at h; simp at h; exact Or.inr ⟨d', h.symm⟩
  | none =>
    rw [hh] at h
    by_cases hx : x = '/'
    · rw [if_pos hx] at h; simp at h; exact Or.inl h
    · rw [if_neg hx] at h; simp at h

lemma noDashB_jsDirname (s : String) (hs : noDashB s = true) :
    noDashB (jsDirname s) = true := by
  unfold jsDirname
  cases hd : dirnameAux s.data with
  | none => decide
  | some d =>
    cases hsd : s.data with
    | nil => rw [hsd] at hd; simp [dirnameAux] at hd
    | cons x xs =>
      rw [hsd] at hd
      rcases dirnameAux_shape x xs d hd with h | ⟨ds, h⟩
      · subst h; decide
      · subst h
        unfold noDashB at hs
        rw [hsd] at hs
        simpa [noDashB] using hs

/-- The `var_stream_map` value is dash-free. -/
lemma noDashB_varStreamMap (g : Globals) (plan : List Rendition) :
    noDashB (varStreamMap g plan) = true := by
  unfold varStreamMap
  refine noDashB_jsJoinSep _ (by decide) _ fun x hx => ?_
  obtain ⟨p, _, rfl⟩ := List.mem_map.1 hx
  refine noDashB_jsJoinSep _ (by decide) _ fun y hy => ?_
  simp only [List.mem_filterMap, id_eq] at hy
  obtain ⟨z, hz, hzy⟩ := hy
  simp only [List.mem_cons, List.mem_singleton, List.not_mem_nil, or_false] at hz
  rcases hz with h | h | h <;> subst h
  · cases hg : g.video with
    | none => rw [hg] at hzy; simp at hzy
    | some w =>
      rw [hg] at hzy
      simp only [Option.some.injEq] at hzy
      subst hzy
      exact noDashB_append_left _ _ (by decide) (by decide)
  · cases hg : g.audio with
    | none => rw [hg] at hzy; simp at hzy
    | some w =>
      rw [hg] at hzy
      simp only [Option.some.injEq] at hzy
      subst hzy
      exact noDashB_append_left _ _ (by decide) (by decide)
  · simp only [Option.some.injEq] at hzy
    subst hzy
    exact noDashB_append_left _ _
      (noDashB_append_left _ _ (by decide) (by decide))
      (by simp [strData_append])

end Mkhls

namespace Mkhls

/-- `noDashB` over an append looks only at the first nonempty side. -/
lemma noDashB_append_eq (a b : String) :
    noDashB (a ++ b) = (if a.data = [] then noDashB b else noDashB a) := by
  unfold noDashB
  rw [strData_append]
  cases h : a.data with
  | nil => simp
  | cons c cs => simp

/-- `path.dirname` never returns the empty string. -/
lemma jsDirname_ne_nil (s : String) : (jsDirname s).data ≠ [] := by
  unfold jsDirname
  cases hd : dirnameAux s.data with
  | none => decide
  | some d => cases d <;> simp

end Mkhls

namespace Mkhls

/-- `Except` bind on a success reduces. -/
lemma exceptOk_bind {α β : Type} (a : α) (f : α → Except String β) :
    (Except.ok a : Except String α) >>= f = f a := rfl

/-- The poster section succeeds when video exists, and its dash elements
are exactly its five option keys. -/
lemma filter_posterArgs (g : Globals) (paths : Paths) (v : VideoStream)
    (hv : g.video = some v) (htmp : noDashB paths.tmp = true)
    (hdur : 0 ≤ g.duration) :
    ∃ c, posterArgs g paths = Except.ok c ∧
      c.filter (fun s => !noDashB s)
        = ["-f", "-map", "-ss", "-frames:v", "-update"] := by
  have f3 : noDashB ⟨jsNumChars (g.duration * (5 / 100))⟩ = true :=
    noDashB_jsNumChars (mul_nonneg hdur (by norm_num))
  have fMapV : noDashB ("0:" ++ (⟨natChars v.index⟩ : String)) = true :=
    noDashB_append_left _ _ (by decide) (by decide)
  have fPoster : noDashB (pathJoin paths.tmp "poster.png") = true :=
    noDashB_pathJoin _ _ htmp
  have hok : posterArgs g paths = Except.ok (argSet [
      ("f", "image2"),
      ("map", "0:" ++ (⟨natChars v.index⟩ : String)),
      ("ss", (⟨jsNumChars (g.duration * (5 / 100))⟩ : String)),
      ("frames:v", "1"),
      ("update", "1")] ++ [pathJoin paths.tmp "poster.png"]) := by
    simp [posterArgs, expectVideo, hv]
  refine ⟨_, hok, ?_⟩
  rw [List.filter_append,
    filter_argSet _ (by
      intro kv hkv
      simp at hkv
      rcases hkv with h | h | h | h | h <;> subst h
      · decide
      · exact fMapV
      · exact f3
      · decide
      · decide)]
  simp +decide [fPoster]

/-- The fallback section (video + audio case) succeeds and its dash
elements are exactly its fifteen option keys. -/
lemma filter_fallbackArgs (o : CliOpts) (g : Globals) (paths : Paths)
    (v : VideoStream) (a : AudioStream)
    (hv : g.video = some v) (ha : g.audio = some a)
    (hpf : noDashB o.videoPixelFormat = true)
    (hap : noDashB o.audioProfile = true)
    (hac : noDashB o.audioCodec = true)
    (hout : noDashB paths.output = true) :
    ∃ c, fallbackArgs o g paths = Except.ok c ∧
      c.filter (fun s => !noDashB s)
        = ["-f", "-map", "-vf", "-codec:v", "-profile:v", "-level:v",
           "-b:v", "-maxrate:v", "-bufsize:v", "-map", "-profile:a",
           "-codec:a", "-ar", "-b:a", "-movflags"] := by
  have f5 : noDashB ⟨jsNumChars (3.1 : ℚ)⟩ = true :=
    noDashB_jsNumChars (by norm_num)
  have fMapV : noDashB ("0:" ++ (⟨natChars v.index⟩ : String)) = true :=
    noDashB_append_left _ _ (by decide) (by decide)
  have fMapA : noDashB ("0:" ++ (⟨natChars a.index⟩ : String)) = true :=
    noDashB_append_left _ _ (by decide) (by decide)
  have fVf : noDashB ("scale=-2:\x27min(720,ih)\x27," ++
      ("format=" ++ o.videoPixelFormat)) = true :=
    noDashB_append_left _ _ (by decide) (by decide)
  have fMp4 : noDashB (pathJoin paths.output "progressive.mp4") = true :=
    noDashB_pathJoin _ _ hout
  have hok : fallbackArgs o g paths = Except.ok ((argSet [
      ("f", "mp4"),
      ("map", "0:" ++ (⟨natChars v.index⟩ : String)),
      ("vf", "scale=-2:\x27min(720,ih)\x27," ++
        ("format=" ++ o.videoPixelFormat)),
      ("codec:v", "libx264"),
      ("profile:v", "main"),
      ("level:v", (⟨jsNumChars (3.1 : ℚ)⟩ : String)),
      ("b:v", "2000k"),
      ("maxrate:v", "2000k"),
      ("bufsize:v", "3000k")] ++ argSet [
      ("map", "0:" ++ (⟨natChars a.index⟩ : String)),
      ("profile:a", o.audioProfile),
      ("codec:a", o.audioCodec),
      ("ar", (⟨natChars a.sample_rate⟩ : String)),
      ("b:a", "96k")]) ++ ["-movflags", "+faststart",
      pathJoin paths.output "progressive.mp4"]) := by
    simp [fallbackArgs, hv, ha]
  refine ⟨_, hok, ?_⟩
  rw [List.filter_append, List.filter_append,
    filter_argSet _ (by
      intro kv hkv
      simp at hkv
      rcases hkv with h | h | h | h | h | h | h | h | h <;> subst h
      · decide
      · exact fMapV
      · exact fVf
      · decide
      · decide
      · exact f5
      · decide
      · decide
      · decide),
    filter_argSet _ (by
      intro kv hkv
      simp at hkv
      rcases hkv with h | h | h | h | h <;> subst h
      · exact fMapA
      · exact hap
      · exact hac
      · exact noDashB_natChars _
      · decide)]
  simp +decide [fMp4]

/-- The HLS section's dash elements are exactly its option keys: twelve
fixed ones, the per-rendition key groups, and `-var_stream_map`. -/
lemma filter_hlsArgs (o : CliOpts) (g : Globals) (paths : Paths)
    (plan : List Rendition) (v : VideoStream) (a : AudioStream)
    (hv : g.video = some v) (ha : g.audio = some a)
    (hvc : noDashB o.videoCodec = true) (hac : noDashB o.audioCodec = true)
    (hht : noDashB o.hlsType = true)
    (hrn : noDashB o.hlsRootPlaylistName = true)
    (hout : noDashB paths.output = true)
    (hpf : noDashB o.videoPixelFormat = true)
    (hap : noDashB o.audioProfile = true)
    (hab : 0 ≤ o.audioBitrate) (hhi : 0 ≤ o.hlsInterval) (hfps : 0 ≤ g.fps)
    (hplan : ∀ r ∈ plan, (∀ s, r.profile = some s → noDashB s = true) ∧
      (∀ s, r.level = some s → noDashB s = true) ∧
      (∀ b, r.bitrate = some b → 0 ≤ b)) :
    (hlsArgs o g paths plan).filter (fun s => !noDashB s)
      = ["-f", "-c:v", "-g", "-keyint_min", "-c:a", "-ar",
         "-hls_playlist_type", "-hls_segment_type", "-hls_time",
         "-hls_list_size", "-master_pl_name", "-hls_segment_filename"] ++
        ((List.enumFrom 0 plan).flatMap fun p => renditionKeys p.1) ++
        ["-var_stream_map"] := by
  have f7 : noDashB ⟨jsToFixed0Chars (g.fps * o.hlsInterval)⟩ = true := by
    unfold jsToFixed0Chars
    exact noDashB_intChars (Int.floor_nonneg.2 (by nlinarith))
  have f8 : noDashB ⟨jsNumChars o.hlsInterval⟩ = true := noDashB_jsNumChars hhi
  have f9 : noDashB ⟨jsNumChars (0 : ℚ)⟩ = true := noDashB_jsNumChars le_rfl
  have fSegNe : (pathJoin paths.output (hlsSegName o)).data ≠ [] := by
    simp +decide [pathJoin, strData_append, List.append_eq_nil]
  have fSegFile : noDashB (pathJoin paths.output (hlsSegName o) ++ "." ++
      (if o.hlsType = "mpegts" then "ts"
       else if o.hlsType = "fmp4" then "m4s" else "undefined")) = true := by
    apply noDashB_append_left
    · exact noDashB_append_left _ _ (noDashB_pathJoin _ _ hout) fSegNe
    · simp +decide [pathJoin, strData_append, List.append_eq_nil]
  have fVsm : noDashB (varStreamMap g plan) = true :=
    noDashB_varStreamMap g plan
  have fSink : noDashB (pathJoin (jsDirname (pathJoin paths.output
      (hlsSegName o))) "index.m3u8") = true :=
    noDashB_pathJoin _ _ (noDashB_jsDirname _ (noDashB_pathJoin _ _ hout))
  have grend := filter_renditionArgs o g v a ha hpf hap hab plan hplan 0
  simp only [hlsArgs, hv, ha, List.enum]
  rw [List.filter_append, List.filter_append, List.filter_append,
    List.filter_append, List.filter_append, List.filter_append,
    filter_argSet _ (by
      intro kv hkv
      simp at hkv
      rcases hkv with h | h | h <;> subst h
      · exact hvc
      · exact f7
      · exact f7),
    filter_argSet _ (by
      intro kv hkv
      simp at hkv
      rcases hkv with h | h <;> subst h
      · exact hac
      · exact noDashB_natChars _),
    filter_argSet _ (by
      intro kv hkv
      simp at hkv
      rcases hkv with h | h | h | h | h | h <;> subst h
      · decide
      · exact hht
      · exact f8
      · exact f9
      · exact hrn
      · exact fSegFile),
    filter_argSet _ (by
      intro kv hkv
      simp at hkv
      subst hkv
      exact fVsm),
    grend]
  simp +decide [fSink]

/-- The preview section succeeds when video exists, and its dash elements
are exactly its five option keys. -/
lemma filter_previewArgs (o : CliOpts) (g : Globals) (paths : Paths)
    (v : VideoStream) (hv : g.video = some v)
    (htmp : noDashB paths.tmp = true) :
    ∃ c, previewArgs o g paths = Except.ok c ∧
      c.filter (fun s => !noDashB s)
        = ["-f", "-map", "-c:v", "-filter:v", "-fps_mode"] := by
  have fMapV : noDashB ("0:" ++ (⟨natChars v.index⟩ : String)) = true :=
    noDashB_append_left _ _ (by decide) (by decide)
  have fSel : noDashB ("scale=-2:" ++
      (⟨jsNumChars o.timelinePreviewTileHeight⟩ : String) ++
      ",select=\x27not(mod(\\n," ++
      (⟨intChars ⌈g.frameCount /
        (getTimelinePreviewSpecs o.previewTunables g.duration).frames⌉⟩ :
          String) ++ "))\x27") = true := by
    apply noDashB_append_left
    · apply noDashB_append_left
      · apply noDashB_append_left
        · exact noDashB_append_left _ _ (by decide) (by decide)
        · simp +decide [strData_append, List.append_eq_nil]
      · simp +decide [strData_append, List.append_eq_nil]
    · simp +decide [strData_append, List.append_eq_nil]
  have fSeek : noDashB (pathJoin paths.tmp "seek_%04d.png") = true :=
    noDashB_pathJoin _ _ htmp
  have hok : previewArgs o g paths = Except.ok (argSet [
      ("f", "image2"),
      ("map", "0:" ++ (⟨natChars v.index⟩ : String)),
      ("c:v", "png"),
      ("filter:v", "scale=-2:" ++
        (⟨jsNumChars o.timelinePreviewTileHeight⟩ : String) ++
        ",select=\x27not(mod(\\n," ++
        (⟨intChars ⌈g.frameCount /
          (getTimelinePreviewSpecs o.previewTunables g.duration).frames⌉⟩ :
            String) ++ "))\x27"),
      ("fps_mode", "passthrough")] ++ [pathJoin paths.tmp "seek_%04d.png"]) := by
    simp [previewArgs, expectVideo, hv]
  refine ⟨_, hok, ?_⟩
  rw [List.filter_append,
    filter_argSet _ (by
      intro kv hkv
      simp at hkv
      rcases hkv with h | h | h | h | h <;> subst h
      · decide
      · exact fMapV
      · decide
      · exact fSel
      · decide)]
  simp +decide [fSeek]

end Mkhls

namespace Mkhls

set_option maxHeartbeats 1000000 in
/-- C5: for a source with both streams and fallback+HLS+previews enabled,
the built argument list declares exactly one input (`-i`), exactly one
fallback mp4 target (its unique `-movflags` marker), exactly one HLS
target (its unique `-master_pl_name` marker) containing exactly
`plan.length` per-rendition option groups (one `-filter:v:<index>` key
each), and exactly one preview image-sequence target (its unique
`-fps_mode` marker) — independent of how many renditions survived
filtering. -/
theorem c5_single_invocation (o : CliOpts) (g : Globals) (paths : Paths)
    (poster : Option String) (plan : List Rendition)
    (v : VideoStream) (a : AudioStream)
    (hv : g.video = some v) (ha : g.audio = some a)
    (hfb : o.fallback = true) (hhls : o.hls = true)
    (htp : o.timelinePreviews = true)
    (hc : CleanInputs o g paths plan) :
    ∃ l, processVideoArgs o g paths poster plan ["-y"] = Except.ok l ∧
      l.count "-i" = 1 ∧
      l.count "-movflags" = 1 ∧
      l.count "-master_pl_name" = 1 ∧
      l.count "-fps_mode" = 1 ∧
      l.countP (fun s => "-filter:v:".data.isPrefixOf s.data) = plan.length := by
  obtain ⟨hsrc, htmp, hout, hpf, hvc, hap, hac, hht, hrn, hab, hhi, hfps,
    hdur, hplan⟩ := hc
  obtain ⟨cP, hPok, hPfil⟩ := filter_posterArgs g paths v hv htmp hdur
  obtain ⟨cF, hFok, hFfil⟩ :=
    filter_fallbackArgs o g paths v a hv ha hpf hap hac hout
  have hHfil := filter_hlsArgs o g paths plan v a hv ha hvc hac hht hrn
    hout hpf hap hab hhi hfps hplan
  obtain ⟨cV, hVok, hVfil⟩ := filter_previewArgs o g paths v hv htmp
  have hz_i := renditionKeys_count "-i" (by decide) (by decide) (by decide)
    (by decide) (by decide) (by decide) (by decide) (by decide) (by decide)
  have hz_mv := renditionKeys_count "-movflags" (by decide) (by decide)
    (by decide) (by decide) (by decide) (by decide) (by decide) (by decide)
    (by decide)
  have hz_mp := renditionKeys_count "-master_pl_name" (by decide) (by decide)
    (by decide) (by decide) (by decide) (by decide) (by decide) (by decide)
    (by decide)
  have hz_fm := renditionKeys_count "-fps_mode" (by decide) (by decide)
    (by decide) (by decide) (by decide) (by decide) (by decide) (by decide)
    (by decide)
  have hzP := renditionKeys_countPre
  rcases poster with _ | pimg
  · have hall : processVideoArgs o g paths none plan ["-y"] =
        Except.ok (((((["-y"] ++ ["-i", paths.source]) ++ cP) ++ cF) ++
          hlsArgs o g paths plan) ++ cV) := by
      simp only [processVideoArgs, hfb, hhls, htp, Option.isNone_none,
        if_true, ite_true, hPok, hFok, hVok, exceptOk_bind, pure_bind]
      rfl
    refine ⟨_, hall, ?_, ?_, ?_, ?_, ?_⟩
    · rw [count_dash_filter "-i" (by decide)]
      simp +decide only [List.filter_append, List.filter_cons,
        List.filter_nil, if_true, if_false, hPfil, hFfil, hHfil, hVfil, hsrc,
        List.count_append, hz_i]
    · rw [count_dash_filter "-movflags" (by decide)]
      simp +decide only [List.filter_append, List.filter_cons,
        List.filter_nil, if_true, if_false, hPfil, hFfil, hHfil, hVfil, hsrc,
        List.count_append, hz_mv]
    · rw [count_dash_filter "-master_pl_name" (by decide)]
      simp +decide only [List.filter_append, List.filter_cons,
        List.filter_nil, if_true, if_false, hPfil, hFfil, hHfil, hVfil, hsrc,
        List.count_append, hz_mp]
    · rw [count_dash_filter "-fps_mode" (by decide)]
      simp +decide only [List.filter_append, List.filter_cons,
        List.filter_nil, if_true, if_false, hPfil, hFfil, hHfil, hVfil, hsrc,
        List.count_append, hz_fm]
    · rw [countP_dash_filter "-filter:v:" '-' "filter:v:".data rfl]
      simp +decide only [List.filter_append, List.filter_cons,
        List.filter_nil, if_true, if_false, hPfil, hFfil, hHfil, hVfil, hsrc,
        List.countP_append, List.countP_cons, List.countP_nil, hzP]
      omega
  · have hall : processVideoArgs o g paths (some pimg) plan ["-y"] =
        Except.ok ((((["-y"] ++ ["-i", paths.source]) ++ cF) ++
          hlsArgs o g paths plan) ++ cV) := by
      simp only [processVideoArgs, hfb, hhls, htp, Option.isNone_some,
        Bool.false_eq_true, if_true, if_false, ite_true, ite_false,
        hFok, hVok, exceptOk_bind, pure_bind]
      rfl
    refine ⟨_, hall, ?_, ?_, ?_, ?_, ?_⟩
    · rw [count_dash_filter "-i" (by decide)]
      simp +decide only [List.filter_append, List.filter_cons,
        List.filter_nil, if_true, if_false, hFfil, hHfil, hVfil, hsrc,
        List.count_append, hz_i]
    · rw [count_dash_filter "-movflags" (by decide)]
      simp +decide only [List.filter_append, List.filter_cons,
        List.filter_nil, if_true, if_false, hFfil, hHfil, hVfil, hsrc,
        List.count_append, hz_mv]
    · rw [count_dash_filter "-master_pl_name" (by decide)]
      simp +decide only [List.filter_append, List.filter_cons,
        List.filter_nil, if_true, if_false, hFfil, hHfil, hVfil, hsrc,
        List.count_append, hz_mp]
    · rw [count_dash_filter "-fps_mode" (by decide)]
      simp +decide only [List.filter_append, List.filter_cons,
        List.filter_nil, if_true, if_false, hFfil, hHfil, hVfil, hsrc,
        List.count_append, hz_fm]
    · rw [countP_dash_filter "-filter:v:" '-' "filter:v:".data rfl]
      simp +decide only [List.filter_append, List.filter_cons,
        List.filter_nil, if_true, if_false, hFfil, hHfil, hVfil, hsrc,
        List.countP_append, List.countP_cons, List.countP_nil, hzP]
      omega

/-- C5 witness: the single-invocation counts hold at a concrete input
(defaults-style options, a 1440p source with one video and one audio
stream, and a two-rendition plan). -/
theorem c5_single_invocation_witness :
    ∃ l, processVideoArgs
        ⟨true, true, true, "yuv420p", "libx264", "aac_low", "aac", 128, 2,
          "mpegts", "segment_%v", "index", 90, ⟨1, 5, 180⟩⟩
        ⟨60, 1440, 24, some ⟨0⟩, some ⟨1, 48000⟩⟩
        ⟨"in.mp4", "tmp", "out"⟩ none
        [⟨720, none, none, none⟩, ⟨480, none, none, none⟩] ["-y"]
        = Except.ok l ∧
      l.count "-i" = 1 ∧ l.count "-movflags" = 1 ∧
      l.count "-master_pl_name" = 1 ∧ l.count "-fps_mode" = 1 ∧
      l.countP (fun s => "-filter:v:".data.isPrefixOf s.data) = 2 := by
  have hplan : ∀ r ∈ ([⟨720, none, none, none⟩,
      ⟨480, none, none, none⟩] : List Rendition),
      (∀ s, r.profile = some s → noDashB s = true) ∧
      (∀ s, r.level = some s → noDashB s = true) ∧
      (∀ b, r.bitrate = some b → 0 ≤ b) := by
    intro r hr
    simp only [List.mem_cons, List.not_mem_nil, or_false] at hr
    rcases hr with rfl | rfl <;>
      exact ⟨fun s hs => (by cases hs), fun s hs => (by cases hs),
        fun b hb => (by cases hb)⟩
  exact c5_single_invocation _ _ _ none _ ⟨0⟩ ⟨1, 48000⟩ rfl rfl rfl rfl rfl
    ⟨by decide, by decide, by decide, by decide, by decide, by decide,
     by decide, by decide, by decide, by norm_num, by norm_num, by norm_num,
     by norm_num, hplan⟩

end Mkhls
